import Mathlib

set_option linter.unreachableTactic false
set_option linter.unusedTactic false
set_option linter.unnecessarySeqFocus false

/-!
Verification of the `cleanup` package of kubectl-config-cleanup.

The Go source (package `cleanup`) probes every context of a kubeconfig and
partitions contexts, clusters and auth entries into a kept configuration
(`Options.result`) and a removed configuration (`Options.removed`).  Go maps
are modelled as association lists with unique keys (`WFConfig`); map indexing
is `lookup`, map assignment is `mapSet`.  The nondeterministic order in which
the `Run` select loop consumes worker outcomes is modelled by an explicit
`order : List String` that is a permutation of the context names.  The network
side of a probe (`clientset.Discovery().ServerVersion()` together with the
non-structural part of client construction) is an external capability and is
modelled by a parameter `probe : String → Bool`; the structural checks of
`NewRestClientForContext` (dangling authInfo / cluster references) are part of
the package and are embedded exactly.
-/

namespace Cleanup

/-- Opaque cluster entry (`clientcmdapi.Cluster`); the engine only reads its
existence (and hands `server` to external client construction). -/
structure ClusterEntry where
  server : String
  deriving DecidableEq

/-- Opaque auth entry (`clientcmdapi.AuthInfo`); never inspected by the engine. -/
structure AuthInfoEntry where
  token : String
  deriving DecidableEq

/-- A kubeconfig context (`clientcmdapi.Context`): names of the referenced
cluster and auth entry, plus an opaque namespace field. -/
structure ContextEntry where
  cluster : String
  authInfo : String
  namespc : String := ""
  deriving DecidableEq

/-- Opaque preferences blob (`clientcmdapi.Preferences`). -/
structure Preferences where
  colors : Bool := false
  deriving DecidableEq

/-- `clientcmdapi.Config`: the three name-indexed maps plus the opaque fields
that are carried through. -/
structure Config where
  contexts : List (String × ContextEntry) := []
  clusters : List (String × ClusterEntry) := []
  authInfos : List (String × AuthInfoEntry) := []
  preferences : Preferences := {}
  extensions : List (String × String) := []
  currentContext : String := ""
  deriving DecidableEq

/-- `clientcmdapi.NewConfig()`: a fresh empty config. -/
def NewConfig : Config := {}

/-- Go map indexing `m[k]` (as the comma-ok form). -/
def lookup {β : Type} (k : String) : List (String × β) → Option β
  | [] => none
  | (k', v) :: rest => if k = k' then some v else lookup k rest

/-- Go map assignment `m[k] = v` (overwrites an existing binding). -/
def mapSet {β : Type} (m : List (String × β)) (k : String) (v : β) :
    List (String × β) :=
  match m with
  | [] => [(k, v)]
  | (k', v') :: rest =>
      if k = k' then (k, v) :: rest else (k', v') :: mapSet rest k v

/-- The key set of a modelled Go map. -/
def keysOf {β : Type} (m : List (String × β)) : List String :=
  m.map (fun p => p.1)

/-- Representation invariant of a Go map value: keys are unique. -/
abbrev WFConfig (c : Config) : Prop :=
  (keysOf c.contexts).Nodup ∧ (keysOf c.clusters).Nodup ∧
    (keysOf c.authInfos).Nodup

/-- `Contains` util from the source: whether `x` is in the slice `a`. -/
def Contains (a : List String) (x : String) : Bool :=
  match a with
  | [] => false
  | n :: rest => if x = n then true else Contains rest x

theorem lookup_mapSet {β : Type} (m : List (String × β)) (k k' : String)
    (v : β) :
    lookup k' (mapSet m k v) = if k' = k then some v else lookup k' m := by
  induction m with
  | nil => by_cases h : k' = k <;> simp [mapSet, lookup, h]
  | cons p rest ih =>
      obtain ⟨a, w⟩ := p
      by_cases hka : k = a
      · subst hka
        by_cases h : k' = k <;> simp [mapSet, lookup, h]
      · by_cases h : k' = k
        · subst h
          simp [mapSet, lookup, hka, ih]
        · simp [mapSet, lookup, hka, ih, h]

theorem lookup_isSome_iff_mem {β : Type} (m : List (String × β)) (k : String) :
    (lookup k m).isSome ↔ k ∈ keysOf m := by
  induction m with
  | nil => simp [lookup, keysOf]
  | cons p rest ih =>
      obtain ⟨a, w⟩ := p
      by_cases h : k = a
      · simp [lookup, keysOf, h]
      · simp [lookup, keysOf, h]
        simpa [keysOf] using ih

theorem lookup_eq_none_of_not_mem {β : Type} (m : List (String × β))
    (k : String) (h : k ∉ keysOf m) : lookup k m = none := by
  cases hl : lookup k m with
  | none => rfl
  | some v =>
      exfalso
      exact h ((lookup_isSome_iff_mem m k).mp (by simp [hl]))

theorem Contains_iff (a : List String) (x : String) :
    Contains a x = true ↔ x ∈ a := by
  induction a with
  | nil => simp [Contains]
  | cons n rest ih =>
      by_cases h : x = n <;> simp [Contains, h, ih]

theorem lookup_mem_values {β : Type} (m : List (String × β)) (k : String)
    (v : β) (h : lookup k m = some v) : v ∈ m.map Prod.snd := by
  induction m with
  | nil => simp [lookup] at h
  | cons p rest ih =>
      obtain ⟨a, w⟩ := p
      by_cases hk : k = a
      · simp [lookup, hk] at h
        simp [h.symm]
      · simp [lookup, hk] at h
        simp [ih h]

/-- The `Options` struct of the source, restricted to the fields the engine
reads or writes (I/O stream and printer fields are external). `raw` is the
starting kubeconfig, `result` holds kept configs, `removed` holds removed
configs. -/
structure Options where
  ignoreContexts : List String
  connectTimeoutSeconds : Nat := 10
  cleanupUsers : Bool := false
  cleanupClusters : Bool := false
  printRaw : Bool := false
  printRemoved : Bool := false
  raw : Config
  result : Config := NewConfig
  removed : Config := NewConfig

/-- The accumulator initialisation of `Options.init` (lines 180-185): fresh
empty `result`/`removed` configs with `raw`'s preferences and extensions
copied over. (The file loading and printer setup of `init` are external.) -/
def initOptions (raw : Config) (ignore : List String)
    (cleanupClusters cleanupUsers : Bool) : Options :=
  { ignoreContexts := ignore
    cleanupClusters := cleanupClusters
    cleanupUsers := cleanupUsers
    raw := raw
    result := { NewConfig with
                  preferences := raw.preferences
                  extensions := raw.extensions }
    removed := { NewConfig with
                  preferences := raw.preferences
                  extensions := raw.extensions } }

/-- The structural part of `NewRestClientForContext`: look up the context,
then its authInfo, then its cluster; a dangling reference is an error.  The
remaining client construction and the network call are external and are
absorbed into the `probe` capability. -/
def NewRestClientForContext (raw : Config) (ctxname : String) :
    Except String Unit :=
  match lookup ctxname raw.contexts with
  | none => Except.error ("context not found: " ++ ctxname)
  | some context =>
      match lookup context.authInfo raw.authInfos with
      | none => Except.error ("authInfo not found for context: " ++ ctxname)
      | some _ =>
          match lookup context.cluster raw.clusters with
          | none => Except.error ("cluster not found for context: " ++ ctxname)
          | some _ => Except.ok ()

/-- The per-context decision of the worker loop body in `testConnection`
(lines 197-222): an ignored context is a success without probing; a failed
REST-client construction is a failure; otherwise the external probe
(`ServerVersion`) decides. -/
def testOutcome (o : Options) (probe : String → Bool) (ctx : String) : Bool :=
  if Contains o.ignoreContexts ctx then true
  else
    match NewRestClientForContext o.raw ctx with
    | Except.error _ => false
    | Except.ok _ => probe ctx

/-- `keepContext` (lines 347-358): route a successful context, and its
referenced auth and cluster entries when they exist, into `result`.
(The source would nil-panic on a context name missing from `raw`; the engine
only ever calls it with names drawn from `raw.Contexts`, so that branch is
modelled as a no-op.) -/
def keepContext (o : Options) (ctxname : String) : Options :=
  match lookup ctxname o.raw.contexts with
  | none => o
  | some context =>
      let r1 := { o.result with
                    contexts := mapSet o.result.contexts ctxname context }
      let r2 :=
        match lookup context.authInfo o.raw.authInfos with
        | some auth =>
            { r1 with authInfos := mapSet r1.authInfos context.authInfo auth }
        | none => r1
      let r3 :=
        match lookup context.cluster o.raw.clusters with
        | some cluster =>
            { r2 with clusters := mapSet r2.clusters context.cluster cluster }
        | none => r2
      { o with result := r3 }

/-- `cleanupContext` (lines 360-371): route a failed context, and its
referenced auth and cluster entries when they exist, into `removed`. -/
def cleanupContext (o : Options) (ctxname : String) : Options :=
  match lookup ctxname o.raw.contexts with
  | none => o
  | some context =>
      let r1 := { o.removed with
                    contexts := mapSet o.removed.contexts ctxname context }
      let r2 :=
        match lookup context.authInfo o.raw.authInfos with
        | some auth =>
            { r1 with authInfos := mapSet r1.authInfos context.authInfo auth }
        | none => r1
      let r3 :=
        match lookup context.cluster o.raw.clusters with
        | some cluster =>
            { r2 with clusters := mapSet r2.clusters context.cluster cluster }
        | none => r2
      { o with removed := r3 }

/-- The result-consumption loop of `Run` (lines 262-269): one outcome per
context is drained from the success/failure channels in an arbitrary arrival
order `order` and routed by `keepContext`/`cleanupContext`. -/
def runPartition (probe : String → Bool) : Options → List String → Options
  | o, [] => o
  | o, n :: rest =>
      runPartition probe
        (if testOutcome o probe n then keepContext o n else cleanupContext o n)
        rest

/-- `clustersNotSpecifiedByAContext` (lines 392-408). -/
def clustersNotSpecifiedByAContext (rawconfig : Config) :
    List (String × ClusterEntry) :=
  let clustersInUse := rawconfig.contexts.map (fun p => p.2.cluster)
  let allClusters := rawconfig.clusters.map (fun p => p.1)
  (allClusters.filter (fun c => !(Contains clustersInUse c))).filterMap
    (fun c => (lookup c rawconfig.clusters).map (fun v => (c, v)))

/-- `usersNotSpecifiedByAContext` (lines 410-426). -/
def usersNotSpecifiedByAContext (rawconfig : Config) :
    List (String × AuthInfoEntry) :=
  let authInfosInUse := rawconfig.contexts.map (fun p => p.2.authInfo)
  let allAuthInfos := rawconfig.authInfos.map (fun p => p.1)
  (allAuthInfos.filter (fun a => !(Contains authInfosInUse a))).filterMap
    (fun a => (lookup a rawconfig.authInfos).map (fun v => (a, v)))

/-- A `for name, v := range zs { m[name] = v }` loop over a modelled map. -/
def insertAll {β : Type} (m : List (String × β)) (zs : List (String × β)) :
    List (String × β) :=
  zs.foldl (fun acc p => mapSet acc p.1 p.2) m

/-- The zombie-cluster step of `Run` (lines 271-280): clusters referenced by
no context go to `result` when `cleanupClusters` is false and to `removed`
when it is true. -/
def addZombieClusters (o : Options) : Options :=
  let zombieClusters := clustersNotSpecifiedByAContext o.raw
  if !o.cleanupClusters then
    { o with result := { o.result with
                           clusters := insertAll o.result.clusters
                             zombieClusters } }
  else
    { o with removed := { o.removed with
                            clusters := insertAll o.removed.clusters
                              zombieClusters } }

/-- The zombie-user step of `Run` (lines 282-291): auth entries referenced by
no context go to `result` when `cleanupUsers` is false and to `removed` when
it is true. -/
def addZombieUsers (o : Options) : Options :=
  let zombieUsers := usersNotSpecifiedByAContext o.raw
  if !o.cleanupUsers then
    { o with result := { o.result with
                           authInfos := insertAll o.result.authInfos
                             zombieUsers } }
  else
    { o with removed := { o.removed with
                            authInfos := insertAll o.removed.authInfos
                              zombieUsers } }

/-- The zombie step of `Run` (lines 271-291): the cluster phase followed by
the user phase. -/
def addZombies (o : Options) : Options :=
  addZombieUsers (addZombieClusters o)

/-- `Run` (lines 226-296), restricted to its state-changing core: consume
every probe outcome, then apply the zombie step.  (Worker spawning, the
progress ticker and the final printing are modelled separately or external.) -/
def Run (o : Options) (probe : String → Bool) (order : List String) : Options :=
  addZombies (runPartition probe o order)

/-- The worker-count computation of `Run` (lines 234-237):
`numWorkers := len(o.raw.Contexts); if numWorkers > 25 { numWorkers = 25 }`. -/
def numWorkers (raw : Config) : Nat :=
  let n := raw.contexts.length
  if n > 25 then 25 else n

/-- The goroutines started by the spawn loop of `Run` (line 238):
`for w := 0; w <= numWorkers; w++ { go testConnection(...) }` — one
`testConnection` goroutine per loop iteration, i.e. `w = 0, 1, ..., numWorkers`
inclusive. -/
def workersStarted (raw : Config) : Nat :=
  (List.range (numWorkers raw + 1)).length

theorem keepContext_raw (o : Options) (n : String) :
    (keepContext o n).raw = o.raw := by
  unfold keepContext
  cases lookup n o.raw.contexts with
  | none => rfl
  | some c =>
      dsimp only
      all_goals
        cases lookup c.authInfo o.raw.authInfos <;>
          cases lookup c.cluster o.raw.clusters <;> rfl

theorem keepContext_ignoreContexts (o : Options) (n : String) :
    (keepContext o n).ignoreContexts = o.ignoreContexts := by
  unfold keepContext
  cases lookup n o.raw.contexts with
  | none => rfl
  | some c =>
      dsimp only
      all_goals
        cases lookup c.authInfo o.raw.authInfos <;>
          cases lookup c.cluster o.raw.clusters <;> rfl

theorem keepContext_cleanupClusters (o : Options) (n : String) :
    (keepContext o n).cleanupClusters = o.cleanupClusters := by
  unfold keepContext
  cases lookup n o.raw.contexts with
  | none => rfl
  | some c =>
      dsimp only
      all_goals
        cases lookup c.authInfo o.raw.authInfos <;>
          cases lookup c.cluster o.raw.clusters <;> rfl

theorem keepContext_cleanupUsers (o : Options) (n : String) :
    (keepContext o n).cleanupUsers = o.cleanupUsers := by
  unfold keepContext
  cases lookup n o.raw.contexts with
  | none => rfl
  | some c =>
      dsimp only
      all_goals
        cases lookup c.authInfo o.raw.authInfos <;>
          cases lookup c.cluster o.raw.clusters <;> rfl

theorem keepContext_removed (o : Options) (n : String) :
    (keepContext o n).removed = o.removed := by
  unfold keepContext
  cases lookup n o.raw.contexts with
  | none => rfl
  | some c =>
      dsimp only
      all_goals
        cases lookup c.authInfo o.raw.authInfos <;>
          cases lookup c.cluster o.raw.clusters <;> rfl

theorem keepContext_result_preferences (o : Options) (n : String) :
    (keepContext o n).result.preferences = o.result.preferences := by
  unfold keepContext
  cases lookup n o.raw.contexts with
  | none => rfl
  | some c =>
      dsimp only
      all_goals
        cases lookup c.authInfo o.raw.authInfos <;>
          cases lookup c.cluster o.raw.clusters <;> rfl

theorem keepContext_result_extensions (o : Options) (n : String) :
    (keepContext o n).result.extensions = o.result.extensions := by
  unfold keepContext
  cases lookup n o.raw.contexts with
  | none => rfl
  | some c =>
      dsimp only
      all_goals
        cases lookup c.authInfo o.raw.authInfos <;>
          cases lookup c.cluster o.raw.clusters <;> rfl

theorem keepContext_result_currentContext (o : Options) (n : String) :
    (keepContext o n).result.currentContext = o.result.currentContext := by
  unfold keepContext
  cases lookup n o.raw.contexts with
  | none => rfl
  | some c =>
      dsimp only
      all_goals
        cases lookup c.authInfo o.raw.authInfos <;>
          cases lookup c.cluster o.raw.clusters <;> rfl

theorem cleanupContext_raw (o : Options) (n : String) :
    (cleanupContext o n).raw = o.raw := by
  unfold cleanupContext
  cases lookup n o.raw.contexts with
  | none => rfl
  | some c =>
      dsimp only
      all_goals
        cases lookup c.authInfo o.raw.authInfos <;>
          cases lookup c.cluster o.raw.clusters <;> rfl

theorem cleanupContext_ignoreContexts (o : Options) (n : String) :
    (cleanupContext o n).ignoreContexts = o.ignoreContexts := by
  unfold cleanupContext
  cases lookup n o.raw.contexts with
  | none => rfl
  | some c =>
      dsimp only
      all_goals
        cases lookup c.authInfo o.raw.authInfos <;>
          cases lookup c.cluster o.raw.clusters <;> rfl

theorem cleanupContext_cleanupClusters (o : Options) (n : String) :
    (cleanupContext o n).cleanupClusters = o.cleanupClusters := by
  unfold cleanupContext
  cases lookup n o.raw.contexts with
  | none => rfl
  | some c =>
      dsimp only
      all_goals
        cases lookup c.authInfo o.raw.authInfos <;>
          cases lookup c.cluster o.raw.clusters <;> rfl

theorem cleanupContext_cleanupUsers (o : Options) (n : String) :
    (cleanupContext o n).cleanupUsers = o.cleanupUsers := by
  unfold cleanupContext
  cases lookup n o.raw.contexts with
  | none => rfl
  | some c =>
      dsimp only
      all_goals
        cases lookup c.authInfo o.raw.authInfos <;>
          cases lookup c.cluster o.raw.clusters <;> rfl

theorem cleanupContext_result (o : Options) (n : String) :
    (cleanupContext o n).result = o.result := by
  unfold cleanupContext
  cases lookup n o.raw.contexts with
  | none => rfl
  | some c =>
      dsimp only
      all_goals
        cases lookup c.authInfo o.raw.authInfos <;>
          cases lookup c.cluster o.raw.clusters <;> rfl

theorem cleanupContext_removed_preferences (o : Options) (n : String) :
    (cleanupContext o n).removed.preferences = o.removed.preferences := by
  unfold cleanupContext
  cases lookup n o.raw.contexts with
  | none => rfl
  | some c =>
      dsimp only
      all_goals
        cases lookup c.authInfo o.raw.authInfos <;>
          cases lookup c.cluster o.raw.clusters <;> rfl

theorem cleanupContext_removed_extensions (o : Options) (n : String) :
    (cleanupContext o n).removed.extensions = o.removed.extensions := by
  unfold cleanupContext
  cases lookup n o.raw.contexts with
  | none => rfl
  | some c =>
      dsimp only
      all_goals
        cases lookup c.authInfo o.raw.authInfos <;>
          cases lookup c.cluster o.raw.clusters <;> rfl

theorem cleanupContext_removed_currentContext (o : Options) (n : String) :
    (cleanupContext o n).removed.currentContext = o.removed.currentContext := by
  unfold cleanupContext
  cases lookup n o.raw.contexts with
  | none => rfl
  | some c =>
      dsimp only
      all_goals
        cases lookup c.authInfo o.raw.authInfos <;>
          cases lookup c.cluster o.raw.clusters <;> rfl

theorem testOutcome_congr (o o' : Options) (probe : String → Bool)
    (n : String) (h1 : o.raw = o'.raw)
    (h2 : o.ignoreContexts = o'.ignoreContexts) :
    testOutcome o probe n = testOutcome o' probe n := by
  simp only [testOutcome, h1, h2]

theorem keepContext_result_contexts (o : Options) (n k : String) :
    lookup k (keepContext o n).result.contexts =
      match lookup n o.raw.contexts with
      | none => lookup k o.result.contexts
      | some c => if k = n then some c else lookup k o.result.contexts := by
  unfold keepContext
  cases lookup n o.raw.contexts with
  | none => rfl
  | some c =>
      dsimp only
      cases lookup c.authInfo o.raw.authInfos <;>
        cases lookup c.cluster o.raw.clusters <;>
          simp [lookup_mapSet]

theorem keepContext_result_clusters (o : Options) (n k : String) :
    lookup k (keepContext o n).result.clusters =
      match lookup n o.raw.contexts with
      | none => lookup k o.result.clusters
      | some c =>
          match lookup c.cluster o.raw.clusters with
          | none => lookup k o.result.clusters
          | some v =>
              if k = c.cluster then some v else lookup k o.result.clusters := by
  unfold keepContext
  cases lookup n o.raw.contexts with
  | none => rfl
  | some c =>
      dsimp only
      cases lookup c.authInfo o.raw.authInfos <;>
        cases lookup c.cluster o.raw.clusters <;>
          simp [lookup_mapSet]

theorem keepContext_result_authInfos (o : Options) (n k : String) :
    lookup k (keepContext o n).result.authInfos =
      match lookup n o.raw.contexts with
      | none => lookup k o.result.authInfos
      | some c =>
          match lookup c.authInfo o.raw.authInfos with
          | none => lookup k o.result.authInfos
          | some v =>
              if k = c.authInfo then some v
              else lookup k o.result.authInfos := by
  unfold keepContext
  cases lookup n o.raw.contexts with
  | none => rfl
  | some c =>
      dsimp only
      cases lookup c.authInfo o.raw.authInfos <;>
        cases lookup c.cluster o.raw.clusters <;>
          simp [lookup_mapSet]

theorem cleanupContext_removed_contexts (o : Options) (n k : String) :
    lookup k (cleanupContext o n).removed.contexts =
      match lookup n o.raw.contexts with
      | none => lookup k o.removed.contexts
      | some c => if k = n then some c else lookup k o.removed.contexts := by
  unfold cleanupContext
  cases lookup n o.raw.contexts with
  | none => rfl
  | some c =>
      dsimp only
      cases lookup c.authInfo o.raw.authInfos <;>
        cases lookup c.cluster o.raw.clusters <;>
          simp [lookup_mapSet]

theorem cleanupContext_removed_clusters (o : Options) (n k : String) :
    lookup k (cleanupContext o n).removed.clusters =
      match lookup n o.raw.contexts with
      | none => lookup k o.removed.clusters
      | some c =>
          match lookup c.cluster o.raw.clusters with
          | none => lookup k o.removed.clusters
          | some v =>
              if k = c.cluster then some v
              else lookup k o.removed.clusters := by
  unfold cleanupContext
  cases lookup n o.raw.contexts with
  | none => rfl
  | some c =>
      dsimp only
      cases lookup c.authInfo o.raw.authInfos <;>
        cases lookup c.cluster o.raw.clusters <;>
          simp [lookup_mapSet]

theorem cleanupContext_removed_authInfos (o : Options) (n k : String) :
    lookup k (cleanupContext o n).removed.authInfos =
      match lookup n o.raw.contexts with
      | none => lookup k o.removed.authInfos
      | some c =>
          match lookup c.authInfo o.raw.authInfos with
          | none => lookup k o.removed.authInfos
          | some v =>
              if k = c.authInfo then some v
              else lookup k o.removed.authInfos := by
  unfold cleanupContext
  cases lookup n o.raw.contexts with
  | none => rfl
  | some c =>
      dsimp only
      cases lookup c.authInfo o.raw.authInfos <;>
        cases lookup c.cluster o.raw.clusters <;>
          simp [lookup_mapSet]

theorem runPartition_raw (probe : String → Bool) (order : List String)
    (o : Options) : (runPartition probe o order).raw = o.raw := by
  induction order generalizing o with
  | nil => rfl
  | cons n rest ih =>
      cases h : testOutcome o probe n <;>
        simp [runPartition, h, ih, keepContext_raw, cleanupContext_raw]

theorem runPartition_ignoreContexts (probe : String → Bool)
    (order : List String) (o : Options) :
    (runPartition probe o order).ignoreContexts = o.ignoreContexts := by
  induction order generalizing o with
  | nil => rfl
  | cons n rest ih =>
      cases h : testOutcome o probe n <;>
        simp [runPartition, h, ih, keepContext_ignoreContexts,
          cleanupContext_ignoreContexts]

theorem runPartition_cleanupClusters (probe : String → Bool)
    (order : List String) (o : Options) :
    (runPartition probe o order).cleanupClusters = o.cleanupClusters := by
  induction order generalizing o with
  | nil => rfl
  | cons n rest ih =>
      cases h : testOutcome o probe n <;>
        simp [runPartition, h, ih, keepContext_cleanupClusters,
          cleanupContext_cleanupClusters]

theorem runPartition_cleanupUsers (probe : String → Bool)
    (order : List String) (o : Options) :
    (runPartition probe o order).cleanupUsers = o.cleanupUsers := by
  induction order generalizing o with
  | nil => rfl
  | cons n rest ih =>
      cases h : testOutcome o probe n <;>
        simp [runPartition, h, ih, keepContext_cleanupUsers,
          cleanupContext_cleanupUsers]

theorem runPartition_result_preferences (probe : String → Bool)
    (order : List String) (o : Options) :
    (runPartition probe o order).result.preferences =
      o.result.preferences := by
  induction order generalizing o with
  | nil => rfl
  | cons n rest ih =>
      cases h : testOutcome o probe n <;>
        simp [runPartition, h, ih, keepContext_result_preferences,
          cleanupContext_result]

theorem runPartition_result_extensions (probe : String → Bool)
    (order : List String) (o : Options) :
    (runPartition probe o order).result.extensions = o.result.extensions := by
  induction order generalizing o with
  | nil => rfl
  | cons n rest ih =>
      cases h : testOutcome o probe n <;>
        simp [runPartition, h, ih, keepContext_result_extensions,
          cleanupContext_result]

theorem runPartition_result_currentContext (probe : String → Bool)
    (order : List String) (o : Options) :
    (runPartition probe o order).result.currentContext =
      o.result.currentContext := by
  induction order generalizing o with
  | nil => rfl
  | cons n rest ih =>
      cases h : testOutcome o probe n <;>
        simp [runPartition, h, ih, keepContext_result_currentContext,
          cleanupContext_result]

theorem runPartition_removed_preferences (probe : String → Bool)
    (order : List String) (o : Options) :
    (runPartition probe o order).removed.preferences =
      o.removed.preferences := by
  induction order generalizing o with
  | nil => rfl
  | cons n rest ih =>
      cases h : testOutcome o probe n <;>
        simp [runPartition, h, ih, keepContext_removed,
          cleanupContext_removed_preferences]

theorem runPartition_removed_extensions (probe : String → Bool)
    (order : List String) (o : Options) :
    (runPartition probe o order).removed.extensions =
      o.removed.extensions := by
  induction order generalizing o with
  | nil => rfl
  | cons n rest ih =>
      cases h : testOutcome o probe n <;>
        simp [runPartition, h, ih, keepContext_removed,
          cleanupContext_removed_extensions]

theorem runPartition_removed_currentContext (probe : String → Bool)
    (order : List String) (o : Options) :
    (runPartition probe o order).removed.currentContext =
      o.removed.currentContext := by
  induction order generalizing o with
  | nil => rfl
  | cons n rest ih =>
      cases h : testOutcome o probe n <;>
        simp [runPartition, h, ih, keepContext_removed,
          cleanupContext_removed_currentContext]

/-- Closed form of the kept contexts after the consumption loop: a name is in
`result.contexts` exactly when it was consumed with a successful outcome. -/
theorem runPartition_result_contexts (probe : String → Bool)
    (order : List String) :
    ∀ (o : Options), order.Nodup →
      (∀ m ∈ order, (lookup m o.raw.contexts).isSome) → ∀ k,
      lookup k (runPartition probe o order).result.contexts =
        if k ∈ order ∧ testOutcome o probe k = true then
          lookup k o.raw.contexts
        else lookup k o.result.contexts := by
  induction order with
  | nil =>
      intro o _ _ k
      simp [runPartition]
  | cons n rest ih =>
      intro o hnd hmem k
      have hnr : n ∉ rest := (List.nodup_cons.mp hnd).1
      have hrest : rest.Nodup := (List.nodup_cons.mp hnd).2
      obtain ⟨c, hc⟩ : ∃ c, lookup n o.raw.contexts = some c :=
        Option.isSome_iff_exists.mp (hmem n (List.mem_cons_self n rest))
      cases hno : testOutcome o probe n with
      | true =>
          have hst : runPartition probe o (n :: rest) =
              runPartition probe (keepContext o n) rest := by
            simp [runPartition, hno]
          have hmem' : ∀ m ∈ rest,
              (lookup m (keepContext o n).raw.contexts).isSome := by
            intro m hm
            rw [keepContext_raw]
            exact hmem m (List.mem_cons_of_mem _ hm)
          rw [hst, ih (keepContext o n) hrest hmem' k,
            testOutcome_congr (keepContext o n) o probe k (keepContext_raw o n)
              (keepContext_ignoreContexts o n),
            keepContext_raw, keepContext_result_contexts, hc]
          dsimp only
          by_cases hkr : k ∈ rest
          · have hkn : k ≠ n := fun h => hnr (h ▸ hkr)
            by_cases hko : testOutcome o probe k = true
            · simp [hkr, hko, List.mem_cons]
            · simp [hkr, hko, hkn, List.mem_cons]
          · by_cases hkn : k = n
            · subst hkn
              simp [hkr, hno, List.mem_cons, hc]
            · by_cases hko : testOutcome o probe k = true <;>
                simp [hkr, hkn, hko, List.mem_cons]
      | false =>
          have hst : runPartition probe o (n :: rest) =
              runPartition probe (cleanupContext o n) rest := by
            simp [runPartition, hno]
          have hmem' : ∀ m ∈ rest,
              (lookup m (cleanupContext o n).raw.contexts).isSome := by
            intro m hm
            rw [cleanupContext_raw]
            exact hmem m (List.mem_cons_of_mem _ hm)
          rw [hst, ih (cleanupContext o n) hrest hmem' k,
            testOutcome_congr (cleanupContext o n) o probe k
              (cleanupContext_raw o n) (cleanupContext_ignoreContexts o n),
            cleanupContext_raw, cleanupContext_result]
          by_cases hkr : k ∈ rest
          · by_cases hko : testOutcome o probe k = true <;>
              simp [hkr, hko, List.mem_cons]
          · by_cases hkn : k = n
            · subst hkn
              simp [hkr, hno, List.mem_cons]
            · by_cases hko : testOutcome o probe k = true <;>
                simp [hkr, hkn, hko, List.mem_cons]

/-- Closed form of the removed contexts after the consumption loop: a name is
in `removed.contexts` exactly when it was consumed with a failed outcome. -/
theorem runPartition_removed_contexts (probe : String → Bool)
    (order : List String) :
    ∀ (o : Options), order.Nodup →
      (∀ m ∈ order, (lookup m o.raw.contexts).isSome) → ∀ k,
      lookup k (runPartition probe o order).removed.contexts =
        if k ∈ order ∧ testOutcome o probe k = false then
          lookup k o.raw.contexts
        else lookup k o.removed.contexts := by
  induction order with
  | nil =>
      intro o _ _ k
      simp [runPartition]
  | cons n rest ih =>
      intro o hnd hmem k
      have hnr : n ∉ rest := (List.nodup_cons.mp hnd).1
      have hrest : rest.Nodup := (List.nodup_cons.mp hnd).2
      obtain ⟨c, hc⟩ : ∃ c, lookup n o.raw.contexts = some c :=
        Option.isSome_iff_exists.mp (hmem n (List.mem_cons_self n rest))
      cases hno : testOutcome o probe n with
      | false =>
          have hst : runPartition probe o (n :: rest) =
              runPartition probe (cleanupContext o n) rest := by
            simp [runPartition, hno]
          have hmem' : ∀ m ∈ rest,
              (lookup m (cleanupContext o n).raw.contexts).isSome := by
            intro m hm
            rw [cleanupContext_raw]
            exact hmem m (List.mem_cons_of_mem _ hm)
          rw [hst, ih (cleanupContext o n) hrest hmem' k,
            testOutcome_congr (cleanupContext o n) o probe k
              (cleanupContext_raw o n) (cleanupContext_ignoreContexts o n),
            cleanupContext_raw, cleanupContext_removed_contexts, hc]
          dsimp only
          by_cases hkr : k ∈ rest
          · have hkn : k ≠ n := fun h => hnr (h ▸ hkr)
            by_cases hko : testOutcome o probe k = false
            · simp [hkr, hko, List.mem_cons]
            · simp [hkr, hko, hkn, List.mem_cons]
          · by_cases hkn : k = n
            · subst hkn
              simp [hkr, hno, List.mem_cons, hc]
            · by_cases hko : testOutcome o probe k = false <;>
                simp [hkr, hkn, hko, List.mem_cons]
      | true =>
          have hst : runPartition probe o (n :: rest) =
              runPartition probe (keepContext o n) rest := by
            simp [runPartition, hno]
          have hmem' : ∀ m ∈ rest,
              (lookup m (keepContext o n).raw.contexts).isSome := by
            intro m hm
            rw [keepContext_raw]
            exact hmem m (List.mem_cons_of_mem _ hm)
          rw [hst, ih (keepContext o n) hrest hmem' k,
            testOutcome_congr (keepContext o n) o probe k (keepContext_raw o n)
              (keepContext_ignoreContexts o n),
            keepContext_raw, keepContext_removed]
          by_cases hkr : k ∈ rest
          · by_cases hko : testOutcome o probe k = false <;>
              simp [hkr, hko, List.mem_cons]
          · by_cases hkn : k = n
            · subst hkn
              simp [hkr, hno, List.mem_cons]
            · by_cases hko : testOutcome o probe k = false <;>
                simp [hkr, hkn, hko, List.mem_cons]

/-- Some context consumed in `order` got a successful outcome and references
cluster `k`. -/
def keptClusterRef (o : Options) (probe : String → Bool) (order : List String)
    (k : String) : Bool :=
  order.any (fun n =>
    testOutcome o probe n &&
      (match lookup n o.raw.contexts with
       | some c => decide (c.cluster = k)
       | none => false))

/-- Some context consumed in `order` got a failed outcome and references
cluster `k`. -/
def removedClusterRef (o : Options) (probe : String → Bool)
    (order : List String) (k : String) : Bool :=
  order.any (fun n =>
    !(testOutcome o probe n) &&
      (match lookup n o.raw.contexts with
       | some c => decide (c.cluster = k)
       | none => false))

/-- Some context consumed in `order` got a successful outcome and references
auth entry `k`. -/
def keptAuthRef (o : Options) (probe : String → Bool) (order : List String)
    (k : String) : Bool :=
  order.any (fun n =>
    testOutcome o probe n &&
      (match lookup n o.raw.contexts with
       | some c => decide (c.authInfo = k)
       | none => false))

/-- Some context consumed in `order` got a failed outcome and references auth
entry `k`. -/
def removedAuthRef (o : Options) (probe : String → Bool) (order : List String)
    (k : String) : Bool :=
  order.any (fun n =>
    !(testOutcome o probe n) &&
      (match lookup n o.raw.contexts with
       | some c => decide (c.authInfo = k)
       | none => false))

theorem keptClusterRef_congr (o o' : Options) (probe : String → Bool)
    (order : List String) (k : String) (h1 : o.raw = o'.raw)
    (h2 : o.ignoreContexts = o'.ignoreContexts) :
    keptClusterRef o probe order k = keptClusterRef o' probe order k := by
  simp only [keptClusterRef, testOutcome, h1, h2]

theorem removedClusterRef_congr (o o' : Options) (probe : String → Bool)
    (order : List String) (k : String) (h1 : o.raw = o'.raw)
    (h2 : o.ignoreContexts = o'.ignoreContexts) :
    removedClusterRef o probe order k = removedClusterRef o' probe order k := by
  simp only [removedClusterRef, testOutcome, h1, h2]

theorem keptAuthRef_congr (o o' : Options) (probe : String → Bool)
    (order : List String) (k : String) (h1 : o.raw = o'.raw)
    (h2 : o.ignoreContexts = o'.ignoreContexts) :
    keptAuthRef o probe order k = keptAuthRef o' probe order k := by
  simp only [keptAuthRef, testOutcome, h1, h2]

theorem removedAuthRef_congr (o o' : Options) (probe : String → Bool)
    (order : List String) (k : String) (h1 : o.raw = o'.raw)
    (h2 : o.ignoreContexts = o'.ignoreContexts) :
    removedAuthRef o probe order k = removedAuthRef o' probe order k := by
  simp only [removedAuthRef, testOutcome, h1, h2]

/-- Closed form of the kept clusters after the consumption loop: a cluster is
in `result.clusters` exactly when it exists in `raw` and some successful
context references it. -/
theorem runPartition_result_clusters (probe : String → Bool)
    (order : List String) :
    ∀ (o : Options) (k : String),
      lookup k (runPartition probe o order).result.clusters =
        if keptClusterRef o probe order k = true ∧
            (lookup k o.raw.clusters).isSome then
          lookup k o.raw.clusters
        else lookup k o.result.clusters := by
  induction order with
  | nil =>
      intro o k
      simp [runPartition, keptClusterRef]
  | cons n rest ih =>
      intro o k
      cases hno : testOutcome o probe n with
      | true =>
          have hst : runPartition probe o (n :: rest) =
              runPartition probe (keepContext o n) rest := by
            simp [runPartition, hno]
          rw [hst, ih (keepContext o n) k,
            keptClusterRef_congr (keepContext o n) o probe rest k
              (keepContext_raw o n) (keepContext_ignoreContexts o n),
            keepContext_raw, keepContext_result_clusters]
          cases hc : lookup n o.raw.contexts with
          | none =>
              simp [keptClusterRef, hc, hno, List.any_cons]
          | some c =>
              dsimp only
              cases hv : lookup c.cluster o.raw.clusters with
              | none =>
                  by_cases hkc : c.cluster = k
                  · subst hkc
                    simp [keptClusterRef, hc, hv, hno, List.any_cons]
                  · simp [keptClusterRef, hc, hv, hno, hkc, List.any_cons]
              | some v =>
                  by_cases hkc : c.cluster = k
                  · subst hkc
                    simp [keptClusterRef, hc, hv, hno, List.any_cons]
                  · have hkc' : k ≠ c.cluster := fun h => hkc h.symm
                    simp [keptClusterRef, hc, hv, hno, hkc, hkc',
                      List.any_cons]
      | false =>
          have hst : runPartition probe o (n :: rest) =
              runPartition probe (cleanupContext o n) rest := by
            simp [runPartition, hno]
          rw [hst, ih (cleanupContext o n) k,
            keptClusterRef_congr (cleanupContext o n) o probe rest k
              (cleanupContext_raw o n) (cleanupContext_ignoreContexts o n),
            cleanupContext_raw, cleanupContext_result]
          simp [keptClusterRef, hno, List.any_cons]

/-- Closed form of the removed clusters after the consumption loop. -/
theorem runPartition_removed_clusters (probe : String → Bool)
    (order : List String) :
    ∀ (o : Options) (k : String),
      lookup k (runPartition probe o order).removed.clusters =
        if removedClusterRef o probe order k = true ∧
            (lookup k o.raw.clusters).isSome then
          lookup k o.raw.clusters
        else lookup k o.removed.clusters := by
  induction order with
  | nil =>
      intro o k
      simp [runPartition, removedClusterRef]
  | cons n rest ih =>
      intro o k
      cases hno : testOutcome o probe n with
      | false =>
          have hst : runPartition probe o (n :: rest) =
              runPartition probe (cleanupContext o n) rest := by
            simp [runPartition, hno]
          rw [hst, ih (cleanupContext o n) k,
            removedClusterRef_congr (cleanupContext o n) o probe rest k
              (cleanupContext_raw o n) (cleanupContext_ignoreContexts o n),
            cleanupContext_raw, cleanupContext_removed_clusters]
          cases hc : lookup n o.raw.contexts with
          | none =>
              simp [removedClusterRef, hc, hno, List.any_cons]
          | some c =>
              dsimp only
              cases hv : lookup c.cluster o.raw.clusters with
              | none =>
                  by_cases hkc : c.cluster = k
                  · subst hkc
                    simp [removedClusterRef, hc, hv, hno, List.any_cons]
                  · simp [removedClusterRef, hc, hv, hno, hkc, List.any_cons]
              | some v =>
                  by_cases hkc : c.cluster = k
                  · subst hkc
                    simp [removedClusterRef, hc, hv, hno, List.any_cons]
                  · have hkc' : k ≠ c.cluster := fun h => hkc h.symm
                    simp [removedClusterRef, hc, hv, hno, hkc, hkc',
                      List.any_cons]
      | true =>
          have hst : runPartition probe o (n :: rest) =
              runPartition probe (keepContext o n) rest := by
            simp [runPartition, hno]
          rw [hst, ih (keepContext o n) k,
            removedClusterRef_congr (keepContext o n) o probe rest k
              (keepContext_raw o n) (keepContext_ignoreContexts o n),
            keepContext_raw, keepContext_removed]
          simp [removedClusterRef, hno, List.any_cons]

/-- Closed form of the kept auth entries after the consumption loop. -/
theorem runPartition_result_authInfos (probe : String → Bool)
    (order : List String) :
    ∀ (o : Options) (k : String),
      lookup k (runPartition probe o order).result.authInfos =
        if keptAuthRef o probe order k = true ∧
            (lookup k o.raw.authInfos).isSome then
          lookup k o.raw.authInfos
        else lookup k o.result.authInfos := by
  induction order with
  | nil =>
      intro o k
      simp [runPartition, keptAuthRef]
  | cons n rest ih =>
      intro o k
      cases hno : testOutcome o probe n with
      | true =>
          have hst : runPartition probe o (n :: rest) =
              runPartition probe (keepContext o n) rest := by
            simp [runPartition, hno]
          rw [hst, ih (keepContext o n) k,
            keptAuthRef_congr (keepContext o n) o probe rest k
              (keepContext_raw o n) (keepContext_ignoreContexts o n),
            keepContext_raw, keepContext_result_authInfos]
          cases hc : lookup n o.raw.contexts with
          | none =>
              simp [keptAuthRef, hc, hno, List.any_cons]
          | some c =>
              dsimp only
              cases hv : lookup c.authInfo o.raw.authInfos with
              | none =>
                  by_cases hkc : c.authInfo = k
                  · subst hkc
                    simp [keptAuthRef, hc, hv, hno, List.any_cons]
                  · simp [keptAuthRef, hc, hv, hno, hkc, List.any_cons]
              | some v =>
                  by_cases hkc : c.authInfo = k
                  · subst hkc
                    simp [keptAuthRef, hc, hv, hno, List.any_cons]
                  · have hkc' : k ≠ c.authInfo := fun h => hkc h.symm
                    simp [keptAuthRef, hc, hv, hno, hkc, hkc', List.any_cons]
      | false =>
          have hst : runPartition probe o (n :: rest) =
              runPartition probe (cleanupContext o n) rest := by
            simp [runPartition, hno]
          rw [hst, ih (cleanupContext o n) k,
            keptAuthRef_congr (cleanupContext o n) o probe rest k
              (cleanupContext_raw o n) (cleanupContext_ignoreContexts o n),
            cleanupContext_raw, cleanupContext_result]
          simp [keptAuthRef, hno, List.any_cons]

/-- Closed form of the removed auth entries after the consumption loop. -/
theorem runPartition_removed_authInfos (probe : String → Bool)
    (order : List String) :
    ∀ (o : Options) (k : String),
      lookup k (runPartition probe o order).removed.authInfos =
        if removedAuthRef o probe order k = true ∧
            (lookup k o.raw.authInfos).isSome then
          lookup k o.raw.authInfos
        else lookup k o.removed.authInfos := by
  induction order with
  | nil =>
      intro o k
      simp [runPartition, removedAuthRef]
  | cons n rest ih =>
      intro o k
      cases hno : testOutcome o probe n with
      | false =>
          have hst : runPartition probe o (n :: rest) =
              runPartition probe (cleanupContext o n) rest := by
            simp [runPartition, hno]
          rw [hst, ih (cleanupContext o n) k,
            removedAuthRef_congr (cleanupContext o n) o probe rest k
              (cleanupContext_raw o n) (cleanupContext_ignoreContexts o n),
            cleanupContext_raw, cleanupContext_removed_authInfos]
          cases hc : lookup n o.raw.contexts with
          | none =>
              simp [removedAuthRef, hc, hno, List.any_cons]
          | some c =>
              dsimp only
              cases hv : lookup c.authInfo o.raw.authInfos with
              | none =>
                  by_cases hkc : c.authInfo = k
                  · subst hkc
                    simp [removedAuthRef, hc, hv, hno, List.any_cons]
                  · simp [removedAuthRef, hc, hv, hno, hkc, List.any_cons]
              | some v =>
                  by_cases hkc : c.authInfo = k
                  · subst hkc
                    simp [removedAuthRef, hc, hv, hno, List.any_cons]
                  · have hkc' : k ≠ c.authInfo := fun h => hkc h.symm
                    simp [removedAuthRef, hc, hv, hno, hkc, hkc',
                      List.any_cons]
      | true =>
          have hst : runPartition probe o (n :: rest) =
              runPartition probe (keepContext o n) rest := by
            simp [runPartition, hno]
          rw [hst, ih (keepContext o n) k,
            removedAuthRef_congr (keepContext o n) o probe rest k
              (keepContext_raw o n) (keepContext_ignoreContexts o n),
            keepContext_raw, keepContext_removed]
          simp [removedAuthRef, hno, List.any_cons]

theorem lookup_filterMapKeys {β : Type} (m : List (String × β)) :
    ∀ (l : List String), l.Nodup → ∀ k,
      lookup k (l.filterMap (fun c => (lookup c m).map (fun v => (c, v)))) =
        if k ∈ l then lookup k m else none := by
  intro l
  induction l with
  | nil =>
      intro _ k
      simp [lookup]
  | cons a t ih =>
      intro hnd k
      have hat : a ∉ t := (List.nodup_cons.mp hnd).1
      have ht : t.Nodup := (List.nodup_cons.mp hnd).2
      cases hm : lookup a m with
      | none =>
          rw [List.filterMap_cons]
          simp only [hm, Option.map_none']
          rw [ih ht k]
          by_cases hk : k = a
          · subst hk
            have : lookup k m = none := hm
            simp [hat, this]
          · simp [hk, List.mem_cons]
      | some v =>
          rw [List.filterMap_cons]
          simp only [hm, Option.map_some']
          by_cases hk : k = a
          · subst hk
            simp [lookup, hm]
          · simp only [lookup, if_neg hk]
            rw [ih ht k]
            simp [hk, List.mem_cons]

theorem keys_filterMapKeys {β : Type} (m : List (String × β))
    (l : List String) :
    keysOf (l.filterMap (fun c => (lookup c m).map (fun v => (c, v)))) =
      l.filter (fun c => (lookup c m).isSome) := by
  induction l with
  | nil => rfl
  | cons a t ih =>
      cases hm : lookup a m <;>
        simp [List.filterMap_cons, hm, keysOf, List.filter_cons, ih] <;>
          simpa [keysOf] using ih

theorem insertAll_lookup {β : Type} (zs : List (String × β)) :
    ∀ (m0 : List (String × β)), (keysOf zs).Nodup → ∀ k,
      lookup k (insertAll m0 zs) =
        match lookup k zs with
        | some v => some v
        | none => lookup k m0 := by
  induction zs with
  | nil =>
      intro m0 _ k
      simp [insertAll, lookup]
  | cons p t ih =>
      intro m0 hnd k
      obtain ⟨a, v⟩ := p
      have hnd' : (a :: keysOf t).Nodup := by simpa [keysOf] using hnd
      have hat : a ∉ keysOf t := (List.nodup_cons.mp hnd').1
      have ht : (keysOf t).Nodup := (List.nodup_cons.mp hnd').2
      have hstep : insertAll m0 ((a, v) :: t) = insertAll (mapSet m0 a v) t :=
        rfl
      rw [hstep, ih (mapSet m0 a v) ht k]
      by_cases hk : k = a
      · subst hk
        have hkt : lookup k t = none := lookup_eq_none_of_not_mem t k hat
        simp [lookup, hkt, lookup_mapSet]
      · cases hkt : lookup k t <;> simp [lookup, hk, hkt, lookup_mapSet]

theorem zombieClusters_lookup (raw : Config)
    (h : (keysOf raw.clusters).Nodup) (k : String) :
    lookup k (clustersNotSpecifiedByAContext raw) =
      if Contains (raw.contexts.map (fun p => p.2.cluster)) k = true then none
      else lookup k raw.clusters := by
  unfold clustersNotSpecifiedByAContext
  dsimp only
  simp only [keysOf] at h
  rw [lookup_filterMapKeys raw.clusters _ (List.Nodup.filter _ h) k]
  by_cases hc : Contains (raw.contexts.map (fun p => p.2.cluster)) k = true
  · have hnotin : k ∉ (raw.clusters.map (fun p => p.1)).filter
        (fun c => !(Contains (raw.contexts.map (fun p => p.2.cluster)) c)) := by
      simp [List.mem_filter, hc]
    simp [hnotin, hc]
  · have hb : Contains (raw.contexts.map (fun p => p.2.cluster)) k = false :=
      Bool.not_eq_true _ ▸ hc
    by_cases hm : k ∈ keysOf raw.clusters
    · have hin : k ∈ (raw.clusters.map (fun p => p.1)).filter
          (fun c => !(Contains (raw.contexts.map (fun p => p.2.cluster)) c)) := by
        simp only [List.mem_filter, hb]
        exact ⟨hm, rfl⟩
      simp [hin, hc]
    · have hnotin : k ∉ (raw.clusters.map (fun p => p.1)).filter
          (fun c => !(Contains (raw.contexts.map (fun p => p.2.cluster)) c)) :=
        fun hk => hm (List.mem_of_mem_filter hk)
      have h2 : lookup k raw.clusters = none :=
        lookup_eq_none_of_not_mem _ _ hm
      simp [hnotin, hc, h2]

theorem zombieUsers_lookup (raw : Config)
    (h : (keysOf raw.authInfos).Nodup) (k : String) :
    lookup k (usersNotSpecifiedByAContext raw) =
      if Contains (raw.contexts.map (fun p => p.2.authInfo)) k = true then none
      else lookup k raw.authInfos := by
  unfold usersNotSpecifiedByAContext
  dsimp only
  simp only [keysOf] at h
  rw [lookup_filterMapKeys raw.authInfos _ (List.Nodup.filter _ h) k]
  by_cases hc : Contains (raw.contexts.map (fun p => p.2.authInfo)) k = true
  · have hnotin : k ∉ (raw.authInfos.map (fun p => p.1)).filter
        (fun c => !(Contains (raw.contexts.map (fun p => p.2.authInfo)) c)) := by
      simp [List.mem_filter, hc]
    simp [hnotin, hc]
  · have hb : Contains (raw.contexts.map (fun p => p.2.authInfo)) k = false :=
      Bool.not_eq_true _ ▸ hc
    by_cases hm : k ∈ keysOf raw.authInfos
    · have hin : k ∈ (raw.authInfos.map (fun p => p.1)).filter
          (fun c => !(Contains (raw.contexts.map (fun p => p.2.authInfo)) c)) := by
        simp only [List.mem_filter, hb]
        exact ⟨hm, rfl⟩
      simp [hin, hc]
    · have hnotin : k ∉ (raw.authInfos.map (fun p => p.1)).filter
          (fun c => !(Contains (raw.contexts.map (fun p => p.2.authInfo)) c)) :=
        fun hk => hm (List.mem_of_mem_filter hk)
      have h2 : lookup k raw.authInfos = none :=
        lookup_eq_none_of_not_mem _ _ hm
      simp [hnotin, hc, h2]

theorem zombieClusters_keys_nodup (raw : Config)
    (h : (keysOf raw.clusters).Nodup) :
    (keysOf (clustersNotSpecifiedByAContext raw)).Nodup := by
  unfold clustersNotSpecifiedByAContext
  dsimp only
  simp only [keysOf] at h
  rw [keys_filterMapKeys]
  exact List.Nodup.filter _ (List.Nodup.filter _ h)

theorem zombieUsers_keys_nodup (raw : Config)
    (h : (keysOf raw.authInfos).Nodup) :
    (keysOf (usersNotSpecifiedByAContext raw)).Nodup := by
  unfold usersNotSpecifiedByAContext
  dsimp only
  simp only [keysOf] at h
  rw [keys_filterMapKeys]
  exact List.Nodup.filter _ (List.Nodup.filter _ h)

theorem addZombieClusters_raw (o : Options) :
    (addZombieClusters o).raw = o.raw := by
  cases hcc : o.cleanupClusters <;> simp [addZombieClusters, hcc]

theorem addZombieClusters_ignoreContexts (o : Options) :
    (addZombieClusters o).ignoreContexts = o.ignoreContexts := by
  cases hcc : o.cleanupClusters <;> simp [addZombieClusters, hcc]

theorem addZombieClusters_cleanupClusters (o : Options) :
    (addZombieClusters o).cleanupClusters = o.cleanupClusters := by
  cases hcc : o.cleanupClusters <;> simp [addZombieClusters, hcc]

theorem addZombieClusters_cleanupUsers (o : Options) :
    (addZombieClusters o).cleanupUsers = o.cleanupUsers := by
  cases hcc : o.cleanupClusters <;> simp [addZombieClusters, hcc]

theorem addZombieClusters_result_contexts (o : Options) :
    (addZombieClusters o).result.contexts = o.result.contexts := by
  cases hcc : o.cleanupClusters <;> simp [addZombieClusters, hcc]

theorem addZombieClusters_result_authInfos (o : Options) :
    (addZombieClusters o).result.authInfos = o.result.authInfos := by
  cases hcc : o.cleanupClusters <;> simp [addZombieClusters, hcc]

theorem addZombieClusters_removed_contexts (o : Options) :
    (addZombieClusters o).removed.contexts = o.removed.contexts := by
  cases hcc : o.cleanupClusters <;> simp [addZombieClusters, hcc]

theorem addZombieClusters_removed_authInfos (o : Options) :
    (addZombieClusters o).removed.authInfos = o.removed.authInfos := by
  cases hcc : o.cleanupClusters <;> simp [addZombieClusters, hcc]

theorem addZombieClusters_result_preferences (o : Options) :
    (addZombieClusters o).result.preferences = o.result.preferences := by
  cases hcc : o.cleanupClusters <;> simp [addZombieClusters, hcc]

theorem addZombieClusters_result_extensions (o : Options) :
    (addZombieClusters o).result.extensions = o.result.extensions := by
  cases hcc : o.cleanupClusters <;> simp [addZombieClusters, hcc]

theorem addZombieClusters_result_currentContext (o : Options) :
    (addZombieClusters o).result.currentContext =
      o.result.currentContext := by
  cases hcc : o.cleanupClusters <;> simp [addZombieClusters, hcc]

theorem addZombieClusters_removed_preferences (o : Options) :
    (addZombieClusters o).removed.preferences = o.removed.preferences := by
  cases hcc : o.cleanupClusters <;> simp [addZombieClusters, hcc]

theorem addZombieClusters_removed_extensions (o : Options) :
    (addZombieClusters o).removed.extensions = o.removed.extensions := by
  cases hcc : o.cleanupClusters <;> simp [addZombieClusters, hcc]

theorem addZombieClusters_removed_currentContext (o : Options) :
    (addZombieClusters o).removed.currentContext =
      o.removed.currentContext := by
  cases hcc : o.cleanupClusters <;> simp [addZombieClusters, hcc]

theorem addZombieClusters_result_clusters (o : Options)
    (h : (keysOf o.raw.clusters).Nodup) (k : String) :
    lookup k (addZombieClusters o).result.clusters =
      if o.cleanupClusters = false ∧
          Contains (o.raw.contexts.map (fun p => p.2.cluster)) k = false ∧
          (lookup k o.raw.clusters).isSome then
        lookup k o.raw.clusters
      else lookup k o.result.clusters := by
  cases hcc : o.cleanupClusters with
  | true => simp [addZombieClusters, hcc]
  | false =>
      simp only [addZombieClusters, hcc, Bool.not_false, if_true]
      rw [insertAll_lookup _ _ (zombieClusters_keys_nodup o.raw h) k,
        zombieClusters_lookup o.raw h k]
      by_cases hin : Contains (o.raw.contexts.map (fun p => p.2.cluster)) k =
          true
      · simp [hin]
      · have hb : Contains (o.raw.contexts.map (fun p => p.2.cluster)) k =
            false := Bool.not_eq_true _ ▸ hin
        cases hr : lookup k o.raw.clusters with
        | none => simp [hin, hb, hr]
        | some v => simp [hin, hb, hr]

theorem addZombieClusters_removed_clusters (o : Options)
    (h : (keysOf o.raw.clusters).Nodup) (k : String) :
    lookup k (addZombieClusters o).removed.clusters =
      if o.cleanupClusters = true ∧
          Contains (o.raw.contexts.map (fun p => p.2.cluster)) k = false ∧
          (lookup k o.raw.clusters).isSome then
        lookup k o.raw.clusters
      else lookup k o.removed.clusters := by
  cases hcc : o.cleanupClusters with
  | false => simp [addZombieClusters, hcc]
  | true =>
      simp only [addZombieClusters, hcc, Bool.not_true, Bool.false_eq_true,
        if_false]
      rw [insertAll_lookup _ _ (zombieClusters_keys_nodup o.raw h) k,
        zombieClusters_lookup o.raw h k]
      by_cases hin : Contains (o.raw.contexts.map (fun p => p.2.cluster)) k =
          true
      · simp [hin]
      · have hb : Contains (o.raw.contexts.map (fun p => p.2.cluster)) k =
            false := Bool.not_eq_true _ ▸ hin
        cases hr : lookup k o.raw.clusters with
        | none => simp [hin, hb, hr]
        | some v => simp [hin, hb, hr]

theorem addZombieUsers_raw (o : Options) :
    (addZombieUsers o).raw = o.raw := by
  cases hcu : o.cleanupUsers <;> simp [addZombieUsers, hcu]

theorem addZombieUsers_ignoreContexts (o : Options) :
    (addZombieUsers o).ignoreContexts = o.ignoreContexts := by
  cases hcu : o.cleanupUsers <;> simp [addZombieUsers, hcu]

theorem addZombieUsers_cleanupClusters (o : Options) :
    (addZombieUsers o).cleanupClusters = o.cleanupClusters := by
  cases hcu : o.cleanupUsers <;> simp [addZombieUsers, hcu]

theorem addZombieUsers_cleanupUsers (o : Options) :
    (addZombieUsers o).cleanupUsers = o.cleanupUsers := by
  cases hcu : o.cleanupUsers <;> simp [addZombieUsers, hcu]

theorem addZombieUsers_result_contexts (o : Options) :
    (addZombieUsers o).result.contexts = o.result.contexts := by
  cases hcu : o.cleanupUsers <;> simp [addZombieUsers, hcu]

theorem addZombieUsers_result_clusters (o : Options) :
    (addZombieUsers o).result.clusters = o.result.clusters := by
  cases hcu : o.cleanupUsers <;> simp [addZombieUsers, hcu]

theorem addZombieUsers_removed_contexts (o : Options) :
    (addZombieUsers o).removed.contexts = o.removed.contexts := by
  cases hcu : o.cleanupUsers <;> simp [addZombieUsers, hcu]

theorem addZombieUsers_removed_clusters (o : Options) :
    (addZombieUsers o).removed.clusters = o.removed.clusters := by
  cases hcu : o.cleanupUsers <;> simp [addZombieUsers, hcu]

theorem addZombieUsers_result_preferences (o : Options) :
    (addZombieUsers o).result.preferences = o.result.preferences := by
  cases hcu : o.cleanupUsers <;> simp [addZombieUsers, hcu]

theorem addZombieUsers_result_extensions (o : Options) :
    (addZombieUsers o).result.extensions = o.result.extensions := by
  cases hcu : o.cleanupUsers <;> simp [addZombieUsers, hcu]

theorem addZombieUsers_result_currentContext (o : Options) :
    (addZombieUsers o).result.currentContext = o.result.currentContext := by
  cases hcu : o.cleanupUsers <;> simp [addZombieUsers, hcu]

theorem addZombieUsers_removed_preferences (o : Options) :
    (addZombieUsers o).removed.preferences = o.removed.preferences := by
  cases hcu : o.cleanupUsers <;> simp [addZombieUsers, hcu]

theorem addZombieUsers_removed_extensions (o : Options) :
    (addZombieUsers o).removed.extensions = o.removed.extensions := by
  cases hcu : o.cleanupUsers <;> simp [addZombieUsers, hcu]

theorem addZombieUsers_removed_currentContext (o : Options) :
    (addZombieUsers o).removed.currentContext =
      o.removed.currentContext := by
  cases hcu : o.cleanupUsers <;> simp [addZombieUsers, hcu]

theorem addZombieUsers_result_authInfos (o : Options)
    (h : (keysOf o.raw.authInfos).Nodup) (k : String) :
    lookup k (addZombieUsers o).result.authInfos =
      if o.cleanupUsers = false ∧
          Contains (o.raw.contexts.map (fun p => p.2.authInfo)) k = false ∧
          (lookup k o.raw.authInfos).isSome then
        lookup k o.raw.authInfos
      else lookup k o.result.authInfos := by
  cases hcu : o.cleanupUsers with
  | true => simp [addZombieUsers, hcu]
  | false =>
      simp only [addZombieUsers, hcu, Bool.not_false, if_true]
      rw [insertAll_lookup _ _ (zombieUsers_keys_nodup o.raw h) k,
        zombieUsers_lookup o.raw h k]
      by_cases hin : Contains (o.raw.contexts.map (fun p => p.2.authInfo)) k =
          true
      · simp [hin]
      · have hb : Contains (o.raw.contexts.map (fun p => p.2.authInfo)) k =
            false := Bool.not_eq_true _ ▸ hin
        cases hr : lookup k o.raw.authInfos with
        | none => simp [hin, hb, hr]
        | some v => simp [hin, hb, hr]

theorem addZombieUsers_removed_authInfos (o : Options)
    (h : (keysOf o.raw.authInfos).Nodup) (k : String) :
    lookup k (addZombieUsers o).removed.authInfos =
      if o.cleanupUsers = true ∧
          Contains (o.raw.contexts.map (fun p => p.2.authInfo)) k = false ∧
          (lookup k o.raw.authInfos).isSome then
        lookup k o.raw.authInfos
      else lookup k o.removed.authInfos := by
  cases hcu : o.cleanupUsers with
  | false => simp [addZombieUsers, hcu]
  | true =>
      simp only [addZombieUsers, hcu, Bool.not_true, Bool.false_eq_true,
        if_false]
      rw [insertAll_lookup _ _ (zombieUsers_keys_nodup o.raw h) k,
        zombieUsers_lookup o.raw h k]
      by_cases hin : Contains (o.raw.contexts.map (fun p => p.2.authInfo)) k =
          true
      · simp [hin]
      · have hb : Contains (o.raw.contexts.map (fun p => p.2.authInfo)) k =
            false := Bool.not_eq_true _ ▸ hin
        cases hr : lookup k o.raw.authInfos with
        | none => simp [hin, hb, hr]
        | some v => simp [hin, hb, hr]

theorem Run_result_contexts (raw : Config) (ignore : List String)
    (cc cu : Bool) (probe : String → Bool) (order : List String)
    (hnd : order.Nodup)
    (hmem : ∀ m ∈ order, (lookup m raw.contexts).isSome) (k : String) :
    lookup k (Run (initOptions raw ignore cc cu) probe order).result.contexts =
      if k ∈ order ∧
          testOutcome (initOptions raw ignore cc cu) probe k = true then
        lookup k raw.contexts
      else none := by
  unfold Run addZombies
  rw [addZombieUsers_result_contexts, addZombieClusters_result_contexts,
    runPartition_result_contexts probe order (initOptions raw ignore cc cu)
      hnd hmem k]
  simp [initOptions, NewConfig, lookup]

theorem Run_removed_contexts (raw : Config) (ignore : List String)
    (cc cu : Bool) (probe : String → Bool) (order : List String)
    (hnd : order.Nodup)
    (hmem : ∀ m ∈ order, (lookup m raw.contexts).isSome) (k : String) :
    lookup k
        (Run (initOptions raw ignore cc cu) probe order).removed.contexts =
      if k ∈ order ∧
          testOutcome (initOptions raw ignore cc cu) probe k = false then
        lookup k raw.contexts
      else none := by
  unfold Run addZombies
  rw [addZombieUsers_removed_contexts, addZombieClusters_removed_contexts,
    runPartition_removed_contexts probe order (initOptions raw ignore cc cu)
      hnd hmem k]
  simp [initOptions, NewConfig, lookup]

theorem Run_result_clusters (raw : Config) (ignore : List String)
    (cc cu : Bool) (probe : String → Bool) (order : List String)
    (hcl : (keysOf raw.clusters).Nodup) (k : String) :
    lookup k (Run (initOptions raw ignore cc cu) probe order).result.clusters =
      if cc = false ∧
          Contains (raw.contexts.map (fun p => p.2.cluster)) k = false ∧
          (lookup k raw.clusters).isSome then
        lookup k raw.clusters
      else if keptClusterRef (initOptions raw ignore cc cu) probe order k =
            true ∧ (lookup k raw.clusters).isSome then
        lookup k raw.clusters
      else none := by
  unfold Run addZombies
  have hraw := runPartition_raw probe order (initOptions raw ignore cc cu)
  have hcc := runPartition_cleanupClusters probe order
    (initOptions raw ignore cc cu)
  rw [addZombieUsers_result_clusters,
    addZombieClusters_result_clusters _ (by rw [hraw]; exact hcl) k, hraw,
    hcc, runPartition_result_clusters probe order
      (initOptions raw ignore cc cu) k]
  simp [initOptions, NewConfig, lookup]

theorem Run_removed_clusters (raw : Config) (ignore : List String)
    (cc cu : Bool) (probe : String → Bool) (order : List String)
    (hcl : (keysOf raw.clusters).Nodup) (k : String) :
    lookup k
        (Run (initOptions raw ignore cc cu) probe order).removed.clusters =
      if cc = true ∧
          Contains (raw.contexts.map (fun p => p.2.cluster)) k = false ∧
          (lookup k raw.clusters).isSome then
        lookup k raw.clusters
      else if removedClusterRef (initOptions raw ignore cc cu) probe order k =
            true ∧ (lookup k raw.clusters).isSome then
        lookup k raw.clusters
      else none := by
  unfold Run addZombies
  have hraw := runPartition_raw probe order (initOptions raw ignore cc cu)
  have hcc := runPartition_cleanupClusters probe order
    (initOptions raw ignore cc cu)
  rw [addZombieUsers_removed_clusters,
    addZombieClusters_removed_clusters _ (by rw [hraw]; exact hcl) k, hraw,
    hcc, runPartition_removed_clusters probe order
      (initOptions raw ignore cc cu) k]
  simp [initOptions, NewConfig, lookup]

theorem Run_result_authInfos (raw : Config) (ignore : List String)
    (cc cu : Bool) (probe : String → Bool) (order : List String)
    (hau : (keysOf raw.authInfos).Nodup) (k : String) :
    lookup k
        (Run (initOptions raw ignore cc cu) probe order).result.authInfos =
      if cu = false ∧
          Contains (raw.contexts.map (fun p => p.2.authInfo)) k = false ∧
          (lookup k raw.authInfos).isSome then
        lookup k raw.authInfos
      else if keptAuthRef (initOptions raw ignore cc cu) probe order k =
            true ∧ (lookup k raw.authInfos).isSome then
        lookup k raw.authInfos
      else none := by
  unfold Run addZombies
  have hraw := runPartition_raw probe order (initOptions raw ignore cc cu)
  have hcu := runPartition_cleanupUsers probe order
    (initOptions raw ignore cc cu)
  have hraw2 := addZombieClusters_raw
    (runPartition probe (initOptions raw ignore cc cu) order)
  have hcu2 := addZombieClusters_cleanupUsers
    (runPartition probe (initOptions raw ignore cc cu) order)
  rw [addZombieUsers_result_authInfos _
      (by rw [hraw2, hraw]; exact hau) k, hraw2, hraw, hcu2, hcu,
    addZombieClusters_result_authInfos,
    runPartition_result_authInfos probe order
      (initOptions raw ignore cc cu) k]
  simp [initOptions, NewConfig, lookup]

theorem Run_removed_authInfos (raw : Config) (ignore : List String)
    (cc cu : Bool) (probe : String → Bool) (order : List String)
    (hau : (keysOf raw.authInfos).Nodup) (k : String) :
    lookup k
        (Run (initOptions raw ignore cc cu) probe order).removed.authInfos =
      if cu = true ∧
          Contains (raw.contexts.map (fun p => p.2.authInfo)) k = false ∧
          (lookup k raw.authInfos).isSome then
        lookup k raw.authInfos
      else if removedAuthRef (initOptions raw ignore cc cu) probe order k =
            true ∧ (lookup k raw.authInfos).isSome then
        lookup k raw.authInfos
      else none := by
  unfold Run addZombies
  have hraw := runPartition_raw probe order (initOptions raw ignore cc cu)
  have hcu := runPartition_cleanupUsers probe order
    (initOptions raw ignore cc cu)
  have hraw2 := addZombieClusters_raw
    (runPartition probe (initOptions raw ignore cc cu) order)
  have hcu2 := addZombieClusters_cleanupUsers
    (runPartition probe (initOptions raw ignore cc cu) order)
  rw [addZombieUsers_removed_authInfos _
      (by rw [hraw2, hraw]; exact hau) k, hraw2, hraw, hcu2, hcu,
    addZombieClusters_removed_authInfos,
    runPartition_removed_authInfos probe order
      (initOptions raw ignore cc cu) k]
  simp [initOptions, NewConfig, lookup]

theorem Run_result_preferences (o : Options) (probe : String → Bool)
    (order : List String) :
    (Run o probe order).result.preferences = o.result.preferences := by
  unfold Run addZombies
  rw [addZombieUsers_result_preferences, addZombieClusters_result_preferences,
    runPartition_result_preferences]

theorem Run_result_extensions (o : Options) (probe : String → Bool)
    (order : List String) :
    (Run o probe order).result.extensions = o.result.extensions := by
  unfold Run addZombies
  rw [addZombieUsers_result_extensions, addZombieClusters_result_extensions,
    runPartition_result_extensions]

theorem Run_result_currentContext (o : Options) (probe : String → Bool)
    (order : List String) :
    (Run o probe order).result.currentContext = o.result.currentContext := by
  unfold Run addZombies
  rw [addZombieUsers_result_currentContext,
    addZombieClusters_result_currentContext,
    runPartition_result_currentContext]

theorem Run_removed_preferences (o : Options) (probe : String → Bool)
    (order : List String) :
    (Run o probe order).removed.preferences = o.removed.preferences := by
  unfold Run addZombies
  rw [addZombieUsers_removed_preferences,
    addZombieClusters_removed_preferences, runPartition_removed_preferences]

theorem Run_removed_extensions (o : Options) (probe : String → Bool)
    (order : List String) :
    (Run o probe order).removed.extensions = o.removed.extensions := by
  unfold Run addZombies
  rw [addZombieUsers_removed_extensions, addZombieClusters_removed_extensions,
    runPartition_removed_extensions]

theorem Run_removed_currentContext (o : Options) (probe : String → Bool)
    (order : List String) :
    (Run o probe order).removed.currentContext =
      o.removed.currentContext := by
  unfold Run addZombies
  rw [addZombieUsers_removed_currentContext,
    addZombieClusters_removed_currentContext,
    runPartition_removed_currentContext]

theorem lookup_of_mem_nodup {β : Type} (m : List (String × β))
    (hnd : (keysOf m).Nodup) (k : String) (v : β) (hm : (k, v) ∈ m) :
    lookup k m = some v := by
  induction m with
  | nil => simp at hm
  | cons p rest ih =>
      obtain ⟨a, w⟩ := p
      have hnd' : (a :: keysOf rest).Nodup := by simpa [keysOf] using hnd
      rcases List.mem_cons.mp hm with h | h
      · obtain ⟨h1, h2⟩ := Prod.mk.injEq .. ▸ h
        simp only [Prod.mk.injEq] at h
        simp [lookup, h.1.symm, h.2]
      · have hka : k ≠ a := by
          intro hk
          subst hk
          exact (List.nodup_cons.mp hnd').1
            (by simpa [keysOf] using List.mem_map_of_mem (fun p => p.1) h)
        simp [lookup, hka, ih (List.nodup_cons.mp hnd').2 h]

theorem contains_cluster_of_lookup (raw : Config) (n : String)
    (ctx : ContextEntry) (h : lookup n raw.contexts = some ctx) :
    Contains (raw.contexts.map (fun p => p.2.cluster)) ctx.cluster = true := by
  rw [Contains_iff]
  have hv : ctx ∈ raw.contexts.map Prod.snd := lookup_mem_values _ _ _ h
  obtain ⟨p, hp, hpe⟩ := List.mem_map.mp hv
  exact List.mem_map.mpr ⟨p, hp, by rw [hpe]⟩

theorem contains_authInfo_of_lookup (raw : Config) (n : String)
    (ctx : ContextEntry) (h : lookup n raw.contexts = some ctx) :
    Contains (raw.contexts.map (fun p => p.2.authInfo)) ctx.authInfo =
      true := by
  rw [Contains_iff]
  have hv : ctx ∈ raw.contexts.map Prod.snd := lookup_mem_values _ _ _ h
  obtain ⟨p, hp, hpe⟩ := List.mem_map.mp hv
  exact List.mem_map.mpr ⟨p, hp, by rw [hpe]⟩

theorem keptClusterRef_eq_false_of_not_inUse (o : Options)
    (probe : String → Bool) (order : List String) (c : String)
    (h : Contains (o.raw.contexts.map (fun p => p.2.cluster)) c = false) :
    keptClusterRef o probe order c = false := by
  rw [Bool.eq_false_iff]
  intro hany
  obtain ⟨n, _, hn⟩ := List.any_eq_true.mp hany
  obtain ⟨_, h2⟩ := Bool.and_eq_true_iff.mp hn
  cases hc : lookup n o.raw.contexts with
  | none => rw [hc] at h2; simp at h2
  | some ctx =>
      rw [hc] at h2
      have hce : ctx.cluster = c := by simpa using h2
      have hin := contains_cluster_of_lookup o.raw n ctx hc
      rw [hce] at hin
      rw [hin] at h
      simp at h

theorem removedClusterRef_eq_false_of_not_inUse (o : Options)
    (probe : String → Bool) (order : List String) (c : String)
    (h : Contains (o.raw.contexts.map (fun p => p.2.cluster)) c = false) :
    removedClusterRef o probe order c = false := by
  rw [Bool.eq_false_iff]
  intro hany
  obtain ⟨n, _, hn⟩ := List.any_eq_true.mp hany
  obtain ⟨_, h2⟩ := Bool.and_eq_true_iff.mp hn
  cases hc : lookup n o.raw.contexts with
  | none => rw [hc] at h2; simp at h2
  | some ctx =>
      rw [hc] at h2
      have hce : ctx.cluster = c := by simpa using h2
      have hin := contains_cluster_of_lookup o.raw n ctx hc
      rw [hce] at hin
      rw [hin] at h
      simp at h

theorem keptAuthRef_eq_false_of_not_inUse (o : Options)
    (probe : String → Bool) (order : List String) (u : String)
    (h : Contains (o.raw.contexts.map (fun p => p.2.authInfo)) u = false) :
    keptAuthRef o probe order u = false := by
  rw [Bool.eq_false_iff]
  intro hany
  obtain ⟨n, _, hn⟩ := List.any_eq_true.mp hany
  obtain ⟨_, h2⟩ := Bool.and_eq_true_iff.mp hn
  cases hc : lookup n o.raw.contexts with
  | none => rw [hc] at h2; simp at h2
  | some ctx =>
      rw [hc] at h2
      have hce : ctx.authInfo = u := by simpa using h2
      have hin := contains_authInfo_of_lookup o.raw n ctx hc
      rw [hce] at hin
      rw [hin] at h
      simp at h

theorem removedAuthRef_eq_false_of_not_inUse (o : Options)
    (probe : String → Bool) (order : List String) (u : String)
    (h : Contains (o.raw.contexts.map (fun p => p.2.authInfo)) u = false) :
    removedAuthRef o probe order u = false := by
  rw [Bool.eq_false_iff]
  intro hany
  obtain ⟨n, _, hn⟩ := List.any_eq_true.mp hany
  obtain ⟨_, h2⟩ := Bool.and_eq_true_iff.mp hn
  cases hc : lookup n o.raw.contexts with
  | none => rw [hc] at h2; simp at h2
  | some ctx =>
      rw [hc] at h2
      have hce : ctx.authInfo = u := by simpa using h2
      have hin := contains_authInfo_of_lookup o.raw n ctx hc
      rw [hce] at hin
      rw [hin] at h
      simp at h

theorem any_perm {α : Type} {l1 l2 : List α} (h : l1.Perm l2)
    (f : α → Bool) : l1.any f = l2.any f := by
  cases h1 : l1.any f with
  | true =>
      obtain ⟨x, hx, hfx⟩ := List.any_eq_true.mp h1
      exact (List.any_eq_true.mpr ⟨x, h.mem_iff.mp hx, hfx⟩).symm
  | false =>
      cases h2 : l2.any f with
      | false => rfl
      | true =>
          obtain ⟨x, hx, hfx⟩ := List.any_eq_true.mp h2
          have := List.any_eq_true.mpr ⟨x, h.mem_iff.mpr hx, hfx⟩
          rw [h1] at this
          exact this.symm ▸ rfl

theorem keptClusterRef_perm (o : Options) (probe : String → Bool)
    {l1 l2 : List String} (h : l1.Perm l2) (k : String) :
    keptClusterRef o probe l1 k = keptClusterRef o probe l2 k :=
  any_perm h _

theorem removedClusterRef_perm (o : Options) (probe : String → Bool)
    {l1 l2 : List String} (h : l1.Perm l2) (k : String) :
    removedClusterRef o probe l1 k = removedClusterRef o probe l2 k :=
  any_perm h _

theorem keptAuthRef_perm (o : Options) (probe : String → Bool)
    {l1 l2 : List String} (h : l1.Perm l2) (k : String) :
    keptAuthRef o probe l1 k = keptAuthRef o probe l2 k :=
  any_perm h _

theorem removedAuthRef_perm (o : Options) (probe : String → Bool)
    {l1 l2 : List String} (h : l1.Perm l2) (k : String) :
    removedAuthRef o probe l1 k = removedAuthRef o probe l2 k :=
  any_perm h _

/-- Extensional equality of two modelled configs: the three maps agree on
every key (Go map equality) and the carried-through fields coincide. -/
def ConfigEquiv (c1 c2 : Config) : Prop :=
  (∀ k, lookup k c1.contexts = lookup k c2.contexts) ∧
  (∀ k, lookup k c1.clusters = lookup k c2.clusters) ∧
  (∀ k, lookup k c1.authInfos = lookup k c2.authInfos) ∧
  c1.preferences = c2.preferences ∧
  c1.extensions = c2.extensions ∧
  c1.currentContext = c2.currentContext

/-- Example kubeconfig with three contexts (the spec's three-context
scenario). -/
def exampleRaw : Config :=
  { contexts := [("a", { cluster := "cX", authInfo := "uX" }),
                 ("b", { cluster := "cY", authInfo := "uY" }),
                 ("c", { cluster := "cZ", authInfo := "uZ" })]
    clusters := [("cX", { server := "sx" }), ("cY", { server := "sy" }),
                 ("cZ", { server := "sz" })]
    authInfos := [("uX", { token := "tx" }), ("uY", { token := "ty" }),
                  ("uZ", { token := "tz" })] }

/-- Example probe: every context but `b` is reachable. -/
def exampleProbe : String → Bool := fun n => if n = "b" then false else true

/-- Example kubeconfig with one context referencing an existing cluster and
auth entry; no zombies. -/
def oneRaw : Config :=
  { contexts := [("a", { cluster := "c1", authInfo := "u1" })]
    clusters := [("c1", { server := "s1" })]
    authInfos := [("u1", { token := "t1" })] }

/-- Example kubeconfig with one context whose cluster and auth references are
both dangling. -/
def danglingRaw : Config :=
  { contexts := [("a", { cluster := "missing-cluster",
                         authInfo := "missing-user" })]
    clusters := []
    authInfos := [] }

/-- Example kubeconfig with one context whose auth reference is dangling but
whose cluster exists. -/
def danglingAuthRaw : Config :=
  { contexts := [("a", { cluster := "c1", authInfo := "missing-user" })]
    clusters := [("c1", { server := "s1" })]
    authInfos := [] }

/-- Example kubeconfig with a zombie cluster (`orphan`) and a zombie auth
entry (`ghost`). -/
def zombieRaw : Config :=
  { contexts := [("a", { cluster := "c1", authInfo := "u1" })]
    clusters := [("c1", { server := "s1" }), ("orphan", { server := "so" })]
    authInfos := [("u1", { token := "t1" }), ("ghost", { token := "tg" })] }

/-- Example kubeconfig where two contexts share one cluster and one auth
entry. -/
def sharedRaw : Config :=
  { contexts := [("a", { cluster := "cS", authInfo := "uS" }),
                 ("b", { cluster := "cS", authInfo := "uS" })]
    clusters := [("cS", { server := "ss" })]
    authInfos := [("uS", { token := "ts" })] }

/-- C1: Partition totality and exclusivity — for every raw config and every
assignment of one probe outcome per context (any probe capability, any
consumption order that covers each context exactly once), every context name
of the raw config ends up in exactly one of `result.contexts` (kept) and
`removed.contexts` (removed): the union of the two key sets is the raw key
set and the two are disjoint. -/
theorem partition_total_and_exclusive (raw : Config) (ignore : List String)
    (cc cu : Bool) (probe : String → Bool) (order : List String)
    (hwf : WFConfig raw) (hperm : order.Perm (keysOf raw.contexts))
    (n : String) :
    (((lookup n (Run (initOptions raw ignore cc cu) probe
          order).result.contexts).isSome ∨
      (lookup n (Run (initOptions raw ignore cc cu) probe
          order).removed.contexts).isSome) ↔
        (lookup n raw.contexts).isSome) ∧
    ¬((lookup n (Run (initOptions raw ignore cc cu) probe
          order).result.contexts).isSome ∧
      (lookup n (Run (initOptions raw ignore cc cu) probe
          order).removed.contexts).isSome) := by
  have hnd : order.Nodup := hperm.symm.nodup hwf.1
  have hmem : ∀ m ∈ order, (lookup m raw.contexts).isSome := fun m hm =>
    (lookup_isSome_iff_mem _ _).mpr (hperm.mem_iff.mp hm)
  rw [Run_result_contexts raw ignore cc cu probe order hnd hmem n,
    Run_removed_contexts raw ignore cc cu probe order hnd hmem n]
  by_cases hin : n ∈ order
  · have hkeys : n ∈ keysOf raw.contexts := hperm.mem_iff.mp hin
    have hsome : (lookup n raw.contexts).isSome :=
      (lookup_isSome_iff_mem _ _).mpr hkeys
    cases hout : testOutcome (initOptions raw ignore cc cu) probe n with
    | true => simp [hin, hout, hsome]
    | false => simp [hin, hout, hsome]
  · have hkeys : n ∉ keysOf raw.contexts := fun hk =>
      hin (hperm.mem_iff.mpr hk)
    have hnone : lookup n raw.contexts = none :=
      lookup_eq_none_of_not_mem _ _ hkeys
    simp [hin, hnone]

/-- Witness for C1 at the three-context example, name `b` (probe fails). -/
theorem partition_total_and_exclusive_witness :
    (((lookup "b" (Run (initOptions exampleRaw [] false false) exampleProbe
          ["a", "b", "c"]).result.contexts).isSome ∨
      (lookup "b" (Run (initOptions exampleRaw [] false false) exampleProbe
          ["a", "b", "c"]).removed.contexts).isSome) ↔
        (lookup "b" exampleRaw.contexts).isSome) ∧
    ¬((lookup "b" (Run (initOptions exampleRaw [] false false) exampleProbe
          ["a", "b", "c"]).result.contexts).isSome ∧
      (lookup "b" (Run (initOptions exampleRaw [] false false) exampleProbe
          ["a", "b", "c"]).removed.contexts).isSome) :=
  partition_total_and_exclusive exampleRaw [] false false exampleProbe
    ["a", "b", "c"] (by decide) (by decide) "b"

/-- C2: Ignore-set override — a context name in the ignore set that exists in
the raw config always lands in the kept contexts, and its worker outcome is
`true` for every probe capability (the probe is never consulted). -/
theorem ignore_always_kept (raw : Config) (ignore : List String)
    (cc cu : Bool) (probe : String → Bool) (order : List String)
    (hwf : WFConfig raw) (hperm : order.Perm (keysOf raw.contexts))
    (n : String) (hig : Contains ignore n = true)
    (hin : (lookup n raw.contexts).isSome) :
    lookup n (Run (initOptions raw ignore cc cu) probe
        order).result.contexts = lookup n raw.contexts ∧
    lookup n (Run (initOptions raw ignore cc cu) probe
        order).removed.contexts = none ∧
    (∀ probe2 : String → Bool,
      testOutcome (initOptions raw ignore cc cu) probe2 n = true) := by
  have hnd : order.Nodup := hperm.symm.nodup hwf.1
  have hmem : ∀ m ∈ order, (lookup m raw.contexts).isSome := fun m hm =>
    (lookup_isSome_iff_mem _ _).mpr (hperm.mem_iff.mp hm)
  have hout : ∀ probe2 : String → Bool,
      testOutcome (initOptions raw ignore cc cu) probe2 n = true := by
    intro probe2
    simp [testOutcome, initOptions, hig]
  have hord : n ∈ order :=
    hperm.mem_iff.mpr ((lookup_isSome_iff_mem _ _).mp hin)
  refine ⟨?_, ?_, hout⟩
  · rw [Run_result_contexts raw ignore cc cu probe order hnd hmem n]
    simp [hord, hout probe]
  · rw [Run_removed_contexts raw ignore cc cu probe order hnd hmem n]
    simp [hord, hout probe]

/-- Witness for C2: `b` is ignored in the three-context example although its
probe fails; it is kept anyway. -/
theorem ignore_always_kept_witness :
    lookup "b" (Run (initOptions exampleRaw ["b"] false false) exampleProbe
        ["a", "b", "c"]).result.contexts = lookup "b" exampleRaw.contexts ∧
    lookup "b" (Run (initOptions exampleRaw ["b"] false false) exampleProbe
        ["a", "b", "c"]).removed.contexts = none ∧
    (∀ probe2 : String → Bool,
      testOutcome (initOptions exampleRaw ["b"] false false) probe2 "b" =
        true) :=
  ignore_always_kept exampleRaw ["b"] false false exampleProbe
    ["a", "b", "c"] (by decide) (by decide) "b" (by decide) (by decide)

/-- C3 counterexample: a context whose cluster AND auth references are both
dangling but whose name is in the ignore set is kept, not removed — the
claim as universally stated ("always lands in RemovedConfig.contexts") is
false. -/
theorem structural_error_counterexample :
    lookup "a" danglingRaw.contexts =
      some { cluster := "missing-cluster", authInfo := "missing-user" } ∧
    lookup "missing-cluster" danglingRaw.clusters = none ∧
    lookup "missing-user" danglingRaw.authInfos = none ∧
    lookup "a" (Run (initOptions danglingRaw ["a"] false false)
        (fun _ => false) ["a"]).removed.contexts = none ∧
    (lookup "a" (Run (initOptions danglingRaw ["a"] false false)
        (fun _ => false) ["a"]).result.contexts).isSome := by
  decide

/-- C3 (amended): a context whose cluster or auth reference is dangling and
whose name is NOT in the ignore set is treated as unreachable and lands in
`removed.contexts`, for every probe capability; the run still completes and
partitions every context of the raw config. -/
theorem structural_error_routing (raw : Config) (ignore : List String)
    (cc cu : Bool) (probe : String → Bool) (order : List String)
    (hwf : WFConfig raw) (hperm : order.Perm (keysOf raw.contexts))
    (n : String) (ctx : ContextEntry) (hn : lookup n raw.contexts = some ctx)
    (hig : Contains ignore n = false)
    (hdang : lookup ctx.authInfo raw.authInfos = none ∨
      lookup ctx.cluster raw.clusters = none) :
    lookup n (Run (initOptions raw ignore cc cu) probe
        order).removed.contexts = some ctx ∧
    lookup n (Run (initOptions raw ignore cc cu) probe
        order).result.contexts = none ∧
    (∀ m, (lookup m raw.contexts).isSome →
      ((lookup m (Run (initOptions raw ignore cc cu) probe
          order).result.contexts).isSome ∨
       (lookup m (Run (initOptions raw ignore cc cu) probe
          order).removed.contexts).isSome)) := by
  have hnd : order.Nodup := hperm.symm.nodup hwf.1
  have hmem : ∀ m ∈ order, (lookup m raw.contexts).isSome := fun m hm =>
    (lookup_isSome_iff_mem _ _).mpr (hperm.mem_iff.mp hm)
  have hout : testOutcome (initOptions raw ignore cc cu) probe n = false := by
    unfold testOutcome NewRestClientForContext
    simp only [initOptions]
    rw [hig]
    simp only [Bool.false_eq_true, if_false]
    rw [hn]
    dsimp only
    cases ha : lookup ctx.authInfo raw.authInfos with
    | none => rfl
    | some au =>
        rcases hdang with h | h
        · rw [ha] at h
          exact absurd h (by simp)
        · dsimp only
          rw [h]
  have hord : n ∈ order :=
    hperm.mem_iff.mpr ((lookup_isSome_iff_mem _ _).mp (by simp [hn]))
  refine ⟨?_, ?_, ?_⟩
  · rw [Run_removed_contexts raw ignore cc cu probe order hnd hmem n]
    simp [hord, hout, hn]
  · rw [Run_result_contexts raw ignore cc cu probe order hnd hmem n]
    simp [hord, hout]
  · intro m hm
    rw [Run_result_contexts raw ignore cc cu probe order hnd hmem m,
      Run_removed_contexts raw ignore cc cu probe order hnd hmem m]
    have hmo : m ∈ order :=
      hperm.mem_iff.mpr ((lookup_isSome_iff_mem _ _).mp hm)
    cases hmout : testOutcome (initOptions raw ignore cc cu) probe m with
    | true =>
        left
        simp [hmo, hmout, hm]
    | false =>
        right
        simp [hmo, hmout, hm]

/-- Witness for the amended C3 at a config whose single context has a
dangling auth reference and is not ignored; the probe says reachable but the
context is removed anyway. -/
theorem structural_error_routing_witness :
    lookup "a" (Run (initOptions danglingAuthRaw [] false false)
        (fun _ => true) ["a"]).removed.contexts =
      some { cluster := "c1", authInfo := "missing-user" } ∧
    lookup "a" (Run (initOptions danglingAuthRaw [] false false)
        (fun _ => true) ["a"]).result.contexts = none ∧
    (∀ m, (lookup m danglingAuthRaw.contexts).isSome →
      ((lookup m (Run (initOptions danglingAuthRaw [] false false)
          (fun _ => true) ["a"]).result.contexts).isSome ∨
       (lookup m (Run (initOptions danglingAuthRaw [] false false)
          (fun _ => true) ["a"]).removed.contexts).isSome)) :=
  structural_error_routing danglingAuthRaw [] false false (fun _ => true)
    ["a"] (by decide) (by decide) "a"
    { cluster := "c1", authInfo := "missing-user" } (by decide) (by decide)
    (Or.inl (by decide))

/-- C10: the ignore check precedes structural validation — a context that is
both ignored and has dangling references is kept (worker outcome `true` for
every probe), lands in `result.contexts`, not in `removed.contexts`, and a
missing cluster or auth entry is simply not copied. -/
theorem ignore_overrides_structural (raw : Config) (ignore : List String)
    (cc cu : Bool) (probe : String → Bool) (order : List String)
    (hwf : WFConfig raw) (hperm : order.Perm (keysOf raw.contexts))
    (n : String) (ctx : ContextEntry) (hig : Contains ignore n = true)
    (hn : lookup n raw.contexts = some ctx) :
    lookup n (Run (initOptions raw ignore cc cu) probe
        order).result.contexts = some ctx ∧
    lookup n (Run (initOptions raw ignore cc cu) probe
        order).removed.contexts = none ∧
    (∀ probe2 : String → Bool,
      testOutcome (initOptions raw ignore cc cu) probe2 n = true) ∧
    (lookup ctx.cluster raw.clusters = none →
      lookup ctx.cluster (Run (initOptions raw ignore cc cu) probe
          order).result.clusters = none) ∧
    (lookup ctx.authInfo raw.authInfos = none →
      lookup ctx.authInfo (Run (initOptions raw ignore cc cu) probe
          order).result.authInfos = none) := by
  have hnd : order.Nodup := hperm.symm.nodup hwf.1
  have hmem : ∀ m ∈ order, (lookup m raw.contexts).isSome := fun m hm =>
    (lookup_isSome_iff_mem _ _).mpr (hperm.mem_iff.mp hm)
  have hout : ∀ probe2 : String → Bool,
      testOutcome (initOptions raw ignore cc cu) probe2 n = true := by
    intro probe2
    simp [testOutcome, initOptions, hig]
  have hord : n ∈ order :=
    hperm.mem_iff.mpr ((lookup_isSome_iff_mem _ _).mp (by simp [hn]))
  refine ⟨?_, ?_, hout, ?_, ?_⟩
  · rw [Run_result_contexts raw ignore cc cu probe order hnd hmem n]
    simp [hord, hout probe, hn]
  · rw [Run_removed_contexts raw ignore cc cu probe order hnd hmem n]
    simp [hord, hout probe]
  · intro hcl
    rw [Run_result_clusters raw ignore cc cu probe order hwf.2.1 ctx.cluster]
    simp [hcl]
  · intro hau
    rw [Run_result_authInfos raw ignore cc cu probe order hwf.2.2
      ctx.authInfo]
    simp [hau]

/-- Witness for C10 at the ignored fully-dangling config. -/
theorem ignore_overrides_structural_witness :
    lookup "a" (Run (initOptions danglingRaw ["a"] false false)
        (fun _ => false) ["a"]).result.contexts =
      some { cluster := "missing-cluster", authInfo := "missing-user" } ∧
    lookup "a" (Run (initOptions danglingRaw ["a"] false false)
        (fun _ => false) ["a"]).removed.contexts = none ∧
    (∀ probe2 : String → Bool,
      testOutcome (initOptions danglingRaw ["a"] false false) probe2 "a" =
        true) ∧
    (lookup "missing-cluster" danglingRaw.clusters = none →
      lookup "missing-cluster" (Run (initOptions danglingRaw ["a"] false
          false) (fun _ => false) ["a"]).result.clusters = none) ∧
    (lookup "missing-user" danglingRaw.authInfos = none →
      lookup "missing-user" (Run (initOptions danglingRaw ["a"] false false)
          (fun _ => false) ["a"]).result.authInfos = none) :=
  ignore_overrides_structural danglingRaw ["a"] false false (fun _ => false)
    ["a"] (by decide) (by decide) "a"
    { cluster := "missing-cluster", authInfo := "missing-user" } (by decide)
    (by decide)

/-- C4: zombie routing by flags — a cluster referenced by no context goes to
the kept clusters iff `cleanupClusters` is false and to the removed clusters
iff it is true; symmetrically for auth entries with `cleanupUsers`; for every
probe capability and consumption order. -/
theorem zombie_routing_by_flags (raw : Config) (ignore : List String)
    (cc cu : Bool) (probe : String → Bool) (order : List String)
    (hwf : WFConfig raw) (_hperm : order.Perm (keysOf raw.contexts)) :
    (∀ c, (lookup c raw.clusters).isSome →
      Contains (raw.contexts.map (fun p => p.2.cluster)) c = false →
      (((lookup c (Run (initOptions raw ignore cc cu) probe
            order).result.clusters).isSome ↔ cc = false) ∧
       ((lookup c (Run (initOptions raw ignore cc cu) probe
            order).removed.clusters).isSome ↔ cc = true))) ∧
    (∀ u, (lookup u raw.authInfos).isSome →
      Contains (raw.contexts.map (fun p => p.2.authInfo)) u = false →
      (((lookup u (Run (initOptions raw ignore cc cu) probe
            order).result.authInfos).isSome ↔ cu = false) ∧
       ((lookup u (Run (initOptions raw ignore cc cu) probe
            order).removed.authInfos).isSome ↔ cu = true))) := by
  constructor
  · intro c hsome hnotuse
    have hk : keptClusterRef (initOptions raw ignore cc cu) probe order c =
        false :=
      keptClusterRef_eq_false_of_not_inUse _ probe order c hnotuse
    have hr : removedClusterRef (initOptions raw ignore cc cu) probe order
        c = false :=
      removedClusterRef_eq_false_of_not_inUse _ probe order c hnotuse
    rw [Run_result_clusters raw ignore cc cu probe order hwf.2.1 c,
      Run_removed_clusters raw ignore cc cu probe order hwf.2.1 c, hk, hr]
    cases hcc : cc <;> simp [hnotuse, hsome]
  · intro u hsome hnotuse
    have hk : keptAuthRef (initOptions raw ignore cc cu) probe order u =
        false :=
      keptAuthRef_eq_false_of_not_inUse _ probe order u hnotuse
    have hr : removedAuthRef (initOptions raw ignore cc cu) probe order u =
        false :=
      removedAuthRef_eq_false_of_not_inUse _ probe order u hnotuse
    rw [Run_result_authInfos raw ignore cc cu probe order hwf.2.2 u,
      Run_removed_authInfos raw ignore cc cu probe order hwf.2.2 u, hk, hr]
    cases hcu : cu <;> simp [hnotuse, hsome]

/-- Witness for C4 at the zombie example, with `cleanupClusters = true` and
`cleanupUsers = false`: `orphan` moves to removed clusters, `ghost` stays in
kept auth entries. -/
theorem zombie_routing_by_flags_witness :
    ((lookup "orphan" (Run (initOptions zombieRaw [] true false)
        (fun _ => true) ["a"]).result.clusters).isSome ↔ true = false) ∧
    ((lookup "orphan" (Run (initOptions zombieRaw [] true false)
        (fun _ => true) ["a"]).removed.clusters).isSome ↔ true = true) ∧
    ((lookup "ghost" (Run (initOptions zombieRaw [] true false)
        (fun _ => true) ["a"]).result.authInfos).isSome ↔ false = false) ∧
    ((lookup "ghost" (Run (initOptions zombieRaw [] true false)
        (fun _ => true) ["a"]).removed.authInfos).isSome ↔ false = true) := by
  have h := zombie_routing_by_flags zombieRaw [] true false (fun _ => true)
    ["a"] (by decide) (by decide)
  exact ⟨(h.1 "orphan" (by decide) (by decide)).1,
    (h.1 "orphan" (by decide) (by decide)).2,
    (h.2 "ghost" (by decide) (by decide)).1,
    (h.2 "ghost" (by decide) (by decide)).2⟩

theorem contains_of_no_zombie_clusters (raw : Config)
    (h : (keysOf raw.clusters).Nodup)
    (hz : clustersNotSpecifiedByAContext raw = []) (k : String)
    (hs : (lookup k raw.clusters).isSome) :
    Contains (raw.contexts.map (fun p => p.2.cluster)) k = true := by
  by_contra hc
  have hb : Contains (raw.contexts.map (fun p => p.2.cluster)) k = false :=
    Bool.not_eq_true _ ▸ hc
  have hl := zombieClusters_lookup raw h k
  rw [hz, hb] at hl
  simp only [lookup, Bool.false_eq_true, if_false] at hl
  rw [← hl] at hs
  simp at hs

theorem contains_of_no_zombie_users (raw : Config)
    (h : (keysOf raw.authInfos).Nodup)
    (hz : usersNotSpecifiedByAContext raw = []) (k : String)
    (hs : (lookup k raw.authInfos).isSome) :
    Contains (raw.contexts.map (fun p => p.2.authInfo)) k = true := by
  by_contra hc
  have hb : Contains (raw.contexts.map (fun p => p.2.authInfo)) k = false :=
    Bool.not_eq_true _ ▸ hc
  have hl := zombieUsers_lookup raw h k
  rw [hz, hb] at hl
  simp only [lookup, Bool.false_eq_true, if_false] at hl
  rw [← hl] at hs
  simp at hs

theorem keptClusterRef_eq_false_of_all_fail (o : Options)
    (probe : String → Bool) (order : List String) (k : String)
    (hperm : order.Perm (keysOf o.raw.contexts))
    (hfail : ∀ n ∈ keysOf o.raw.contexts, testOutcome o probe n = false) :
    keptClusterRef o probe order k = false := by
  rw [Bool.eq_false_iff]
  intro hany
  obtain ⟨n, hin, hn⟩ := List.any_eq_true.mp hany
  obtain ⟨h1, _⟩ := Bool.and_eq_true_iff.mp hn
  have h2 := hfail n (hperm.mem_iff.mp hin)
  rw [h2] at h1
  simp at h1

theorem keptAuthRef_eq_false_of_all_fail (o : Options)
    (probe : String → Bool) (order : List String) (k : String)
    (hperm : order.Perm (keysOf o.raw.contexts))
    (hfail : ∀ n ∈ keysOf o.raw.contexts, testOutcome o probe n = false) :
    keptAuthRef o probe order k = false := by
  rw [Bool.eq_false_iff]
  intro hany
  obtain ⟨n, hin, hn⟩ := List.any_eq_true.mp hany
  obtain ⟨h1, _⟩ := Bool.and_eq_true_iff.mp hn
  have h2 := hfail n (hperm.mem_iff.mp hin)
  rw [h2] at h1
  simp at h1

theorem removedClusterRef_eq_true_of_contains (o : Options)
    (probe : String → Bool) (order : List String) (k : String)
    (hwfc : (keysOf o.raw.contexts).Nodup)
    (hperm : order.Perm (keysOf o.raw.contexts))
    (hfail : ∀ n ∈ keysOf o.raw.contexts, testOutcome o probe n = false)
    (hcont : Contains (o.raw.contexts.map (fun p => p.2.cluster)) k = true) :
    removedClusterRef o probe order k = true := by
  obtain ⟨p, hp, hpk⟩ := List.mem_map.mp ((Contains_iff _ _).mp hcont)
  have hkey : p.1 ∈ keysOf o.raw.contexts :=
    List.mem_map_of_mem (fun q => q.1) hp
  have hlk : lookup p.1 o.raw.contexts = some p.2 :=
    lookup_of_mem_nodup _ hwfc p.1 p.2 (by simpa using hp)
  refine List.any_eq_true.mpr ⟨p.1, hperm.mem_iff.mpr hkey, ?_⟩
  rw [hfail p.1 hkey, hlk]
  simp [hpk]

theorem removedAuthRef_eq_true_of_contains (o : Options)
    (probe : String → Bool) (order : List String) (k : String)
    (hwfc : (keysOf o.raw.contexts).Nodup)
    (hperm : order.Perm (keysOf o.raw.contexts))
    (hfail : ∀ n ∈ keysOf o.raw.contexts, testOutcome o probe n = false)
    (hcont : Contains (o.raw.contexts.map (fun p => p.2.authInfo)) k =
      true) :
    removedAuthRef o probe order k = true := by
  obtain ⟨p, hp, hpk⟩ := List.mem_map.mp ((Contains_iff _ _).mp hcont)
  have hkey : p.1 ∈ keysOf o.raw.contexts :=
    List.mem_map_of_mem (fun q => q.1) hp
  have hlk : lookup p.1 o.raw.contexts = some p.2 :=
    lookup_of_mem_nodup _ hwfc p.1 p.2 (by simpa using hp)
  refine List.any_eq_true.mpr ⟨p.1, hperm.mem_iff.mpr hkey, ?_⟩
  rw [hfail p.1 hkey, hlk]
  simp [hpk]

/-- C5 counterexample: one context, its cluster and auth entry both present,
no zombies, both flags false, the probe fails — the claim says KeptConfig
still contains all of RawConfig's clusters, but the kept clusters map does
not contain `c1`. -/
theorem all_fail_counterexample :
    clustersNotSpecifiedByAContext oneRaw = [] ∧
    usersNotSpecifiedByAContext oneRaw = [] ∧
    testOutcome (initOptions oneRaw [] false false) (fun _ => false) "a" =
      false ∧
    (lookup "c1" oneRaw.clusters).isSome ∧
    lookup "c1" (Run (initOptions oneRaw [] false false) (fun _ => false)
        ["a"]).result.clusters = none := by
  decide

/-- C5 (amended): if every context's outcome is a failure, no zombie
clusters or auth entries exist, and both cleanup flags are false, then the
removed contexts equal all raw contexts, the kept contexts are empty, and
RemovedConfig carries all of RawConfig's clusters and auth entries while
KeptConfig's clusters and auth maps are empty. -/
theorem all_fail_scenario (raw : Config) (ignore : List String)
    (probe : String → Bool) (order : List String) (hwf : WFConfig raw)
    (hperm : order.Perm (keysOf raw.contexts))
    (hfail : ∀ n ∈ keysOf raw.contexts,
      testOutcome (initOptions raw ignore false false) probe n = false)
    (hzc : clustersNotSpecifiedByAContext raw = [])
    (hzu : usersNotSpecifiedByAContext raw = []) :
    (∀ n, lookup n (Run (initOptions raw ignore false false) probe
        order).removed.contexts = lookup n raw.contexts) ∧
    (∀ n, lookup n (Run (initOptions raw ignore false false) probe
        order).result.contexts = none) ∧
    (∀ k, lookup k (Run (initOptions raw ignore false false) probe
        order).result.clusters = none) ∧
    (∀ k, lookup k (Run (initOptions raw ignore false false) probe
        order).removed.clusters = lookup k raw.clusters) ∧
    (∀ k, lookup k (Run (initOptions raw ignore false false) probe
        order).result.authInfos = none) ∧
    (∀ k, lookup k (Run (initOptions raw ignore false false) probe
        order).removed.authInfos = lookup k raw.authInfos) := by
  have hnd : order.Nodup := hperm.symm.nodup hwf.1
  have hmem : ∀ m ∈ order, (lookup m raw.contexts).isSome := fun m hm =>
    (lookup_isSome_iff_mem _ _).mpr (hperm.mem_iff.mp hm)
  have hperm' : order.Perm
      (keysOf (initOptions raw ignore false false).raw.contexts) := hperm
  have hfail' : ∀ n ∈ keysOf (initOptions raw ignore false false).raw.contexts,
      testOutcome (initOptions raw ignore false false) probe n = false :=
    hfail
  refine ⟨?_, ?_, ?_, ?_, ?_, ?_⟩
  · intro n
    rw [Run_removed_contexts raw ignore false false probe order hnd hmem n]
    by_cases hin : n ∈ order
    · simp [hin, hfail n (hperm.mem_iff.mp hin)]
    · have hkeys : n ∉ keysOf raw.contexts := fun hk =>
        hin (hperm.mem_iff.mpr hk)
      simp [hin, lookup_eq_none_of_not_mem _ _ hkeys]
  · intro n
    rw [Run_result_contexts raw ignore false false probe order hnd hmem n]
    by_cases hin : n ∈ order
    · simp [hin, hfail n (hperm.mem_iff.mp hin)]
    · simp [hin]
  · intro k
    rw [Run_result_clusters raw ignore false false probe order hwf.2.1 k]
    by_cases hs : (lookup k raw.clusters).isSome
    · have hcont := contains_of_no_zombie_clusters raw hwf.2.1 hzc k hs
      have hkf := keptClusterRef_eq_false_of_all_fail
        (initOptions raw ignore false false) probe order k hperm' hfail'
      simp [hcont, hkf]
    · simp [hs]
  · intro k
    rw [Run_removed_clusters raw ignore false false probe order hwf.2.1 k]
    by_cases hs : (lookup k raw.clusters).isSome
    · have hcont := contains_of_no_zombie_clusters raw hwf.2.1 hzc k hs
      have hrt := removedClusterRef_eq_true_of_contains
        (initOptions raw ignore false false) probe order k hwf.1 hperm'
        hfail' hcont
      simp [hrt, hs]
    · have hn : lookup k raw.clusters = none :=
        Option.not_isSome_iff_eq_none.mp hs
      simp [hs, hn]
  · intro k
    rw [Run_result_authInfos raw ignore false false probe order hwf.2.2 k]
    by_cases hs : (lookup k raw.authInfos).isSome
    · have hcont := contains_of_no_zombie_users raw hwf.2.2 hzu k hs
      have hkf := keptAuthRef_eq_false_of_all_fail
        (initOptions raw ignore false false) probe order k hperm' hfail'
      simp [hcont, hkf]
    · simp [hs]
  · intro k
    rw [Run_removed_authInfos raw ignore false false probe order hwf.2.2 k]
    by_cases hs : (lookup k raw.authInfos).isSome
    · have hcont := contains_of_no_zombie_users raw hwf.2.2 hzu k hs
      have hrt := removedAuthRef_eq_true_of_contains
        (initOptions raw ignore false false) probe order k hwf.1 hperm'
        hfail' hcont
      simp [hrt, hs]
    · have hn : lookup k raw.authInfos = none :=
        Option.not_isSome_iff_eq_none.mp hs
      simp [hs, hn]

/-- Witness for the amended C5 at the one-context example with an
always-failing probe. -/
theorem all_fail_scenario_witness :
    (∀ n, lookup n (Run (initOptions oneRaw [] false false)
        (fun _ => false) ["a"]).removed.contexts =
      lookup n oneRaw.contexts) ∧
    (∀ n, lookup n (Run (initOptions oneRaw [] false false)
        (fun _ => false) ["a"]).result.contexts = none) ∧
    (∀ k, lookup k (Run (initOptions oneRaw [] false false)
        (fun _ => false) ["a"]).result.clusters = none) ∧
    (∀ k, lookup k (Run (initOptions oneRaw [] false false)
        (fun _ => false) ["a"]).removed.clusters =
      lookup k oneRaw.clusters) ∧
    (∀ k, lookup k (Run (initOptions oneRaw [] false false)
        (fun _ => false) ["a"]).result.authInfos = none) ∧
    (∀ k, lookup k (Run (initOptions oneRaw [] false false)
        (fun _ => false) ["a"]).removed.authInfos =
      lookup k oneRaw.authInfos) :=
  all_fail_scenario oneRaw [] (fun _ => false) ["a"] (by decide) (by decide)
    (by decide) (by decide) (by decide)

theorem Run_raw (o : Options) (probe : String → Bool)
    (order : List String) : (Run o probe order).raw = o.raw := by
  unfold Run addZombies
  rw [addZombieUsers_raw, addZombieClusters_raw, runPartition_raw]

/-- C6: the worker-count claim fails — the spawn loop
`for w := 0; w <= numWorkers; w++` runs `numWorkers + 1` times, so at the
one-context example the scheduler starts 2 probe worker goroutines while
`min(len(contexts), 25)` is 1. -/
theorem worker_pool_off_by_one :
    workersStarted oneRaw = numWorkers oneRaw + 1 ∧
    numWorkers oneRaw = Nat.min oneRaw.contexts.length 25 ∧
    Nat.min oneRaw.contexts.length 25 = 1 ∧
    workersStarted oneRaw = 2 := by
  decide

/-- C7: non-exclusive entry membership — a cluster entry referenced by a kept
context and by a removed context is copied into the cluster maps of both
accumulators, and likewise for a shared auth entry. -/
theorem shared_entry_in_both (raw : Config) (ignore : List String)
    (cc cu : Bool) (probe : String → Bool) (order : List String)
    (hwf : WFConfig raw) (hperm : order.Perm (keysOf raw.contexts)) :
    (∀ a b ca cb c v,
      lookup a raw.contexts = some ca → lookup b raw.contexts = some cb →
      (lookup a (Run (initOptions raw ignore cc cu) probe
          order).result.contexts).isSome →
      (lookup b (Run (initOptions raw ignore cc cu) probe
          order).removed.contexts).isSome →
      ca.cluster = c → cb.cluster = c → lookup c raw.clusters = some v →
      (lookup c (Run (initOptions raw ignore cc cu) probe
          order).result.clusters = some v ∧
       lookup c (Run (initOptions raw ignore cc cu) probe
          order).removed.clusters = some v)) ∧
    (∀ a b ca cb u v,
      lookup a raw.contexts = some ca → lookup b raw.contexts = some cb →
      (lookup a (Run (initOptions raw ignore cc cu) probe
          order).result.contexts).isSome →
      (lookup b (Run (initOptions raw ignore cc cu) probe
          order).removed.contexts).isSome →
      ca.authInfo = u → cb.authInfo = u → lookup u raw.authInfos = some v →
      (lookup u (Run (initOptions raw ignore cc cu) probe
          order).result.authInfos = some v ∧
       lookup u (Run (initOptions raw ignore cc cu) probe
          order).removed.authInfos = some v)) := by
  have hnd : order.Nodup := hperm.symm.nodup hwf.1
  have hmem : ∀ m ∈ order, (lookup m raw.contexts).isSome := fun m hm =>
    (lookup_isSome_iff_mem _ _).mpr (hperm.mem_iff.mp hm)
  constructor
  · intro a b ca cb c v ha hb hka hkb hca hcb hv
    have hAout : a ∈ order ∧
        testOutcome (initOptions raw ignore cc cu) probe a = true := by
      rw [Run_result_contexts raw ignore cc cu probe order hnd hmem a] at hka
      by_cases hp : a ∈ order ∧
          testOutcome (initOptions raw ignore cc cu) probe a = true
      · exact hp
      · rw [if_neg hp] at hka
        simp at hka
    have hBout : b ∈ order ∧
        testOutcome (initOptions raw ignore cc cu) probe b = false := by
      rw [Run_removed_contexts raw ignore cc cu probe order hnd hmem b] at hkb
      by_cases hp : b ∈ order ∧
          testOutcome (initOptions raw ignore cc cu) probe b = false
      · exact hp
      · rw [if_neg hp] at hkb
        simp at hkb
    have hlooka : lookup a (initOptions raw ignore cc cu).raw.contexts =
        some ca := ha
    have hlookb : lookup b (initOptions raw ignore cc cu).raw.contexts =
        some cb := hb
    have hkept : keptClusterRef (initOptions raw ignore cc cu) probe order
        c = true :=
      List.any_eq_true.mpr ⟨a, hAout.1, by
        rw [hAout.2, hlooka]
        simp [hca]⟩
    have hrem : removedClusterRef (initOptions raw ignore cc cu) probe order
        c = true :=
      List.any_eq_true.mpr ⟨b, hBout.1, by
        rw [hBout.2, hlookb]
        simp [hcb]⟩
    have hcont : Contains (raw.contexts.map (fun p => p.2.cluster)) c =
        true := by
      have := contains_cluster_of_lookup raw a ca ha
      rw [hca] at this
      exact this
    constructor
    · rw [Run_result_clusters raw ignore cc cu probe order hwf.2.1 c]
      simp [hcont, hkept, hv]
    · rw [Run_removed_clusters raw ignore cc cu probe order hwf.2.1 c]
      simp [hcont, hrem, hv]
  · intro a b ca cb u v ha hb hka hkb hca hcb hv
    have hAout : a ∈ order ∧
        testOutcome (initOptions raw ignore cc cu) probe a = true := by
      rw [Run_result_contexts raw ignore cc cu probe order hnd hmem a] at hka
      by_cases hp : a ∈ order ∧
          testOutcome (initOptions raw ignore cc cu) probe a = true
      · exact hp
      · rw [if_neg hp] at hka
        simp at hka
    have hBout : b ∈ order ∧
        testOutcome (initOptions raw ignore cc cu) probe b = false := by
      rw [Run_removed_contexts raw ignore cc cu probe order hnd hmem b] at hkb
      by_cases hp : b ∈ order ∧
          testOutcome (initOptions raw ignore cc cu) probe b = false
      · exact hp
      · rw [if_neg hp] at hkb
        simp at hkb
    have hlooka : lookup a (initOptions raw ignore cc cu).raw.contexts =
        some ca := ha
    have hlookb : lookup b (initOptions raw ignore cc cu).raw.contexts =
        some cb := hb
    have hkept : keptAuthRef (initOptions raw ignore cc cu) probe order u =
        true :=
      List.any_eq_true.mpr ⟨a, hAout.1, by
        rw [hAout.2, hlooka]
        simp [hca]⟩
    have hrem : removedAuthRef (initOptions raw ignore cc cu) probe order u =
        true :=
      List.any_eq_true.mpr ⟨b, hBout.1, by
        rw [hBout.2, hlookb]
        simp [hcb]⟩
    have hcont : Contains (raw.contexts.map (fun p => p.2.authInfo)) u =
        true := by
      have := contains_authInfo_of_lookup raw a ca ha
      rw [hca] at this
      exact this
    constructor
    · rw [Run_result_authInfos raw ignore cc cu probe order hwf.2.2 u]
      simp [hcont, hkept, hv]
    · rw [Run_removed_authInfos raw ignore cc cu probe order hwf.2.2 u]
      simp [hcont, hrem, hv]

/-- Witness for C7 at the shared-entry example: contexts `a` (kept) and `b`
(removed) share cluster `cS` and auth entry `uS`; both copies exist. -/
theorem shared_entry_in_both_witness :
    (lookup "cS" (Run (initOptions sharedRaw [] false false) exampleProbe
        ["a", "b"]).result.clusters = some { server := "ss" } ∧
     lookup "cS" (Run (initOptions sharedRaw [] false false) exampleProbe
        ["a", "b"]).removed.clusters = some { server := "ss" }) ∧
    (lookup "uS" (Run (initOptions sharedRaw [] false false) exampleProbe
        ["a", "b"]).result.authInfos = some { token := "ts" } ∧
     lookup "uS" (Run (initOptions sharedRaw [] false false) exampleProbe
        ["a", "b"]).removed.authInfos = some { token := "ts" }) := by
  have h := shared_entry_in_both sharedRaw [] false false exampleProbe
    ["a", "b"] (by decide) (by decide)
  exact ⟨h.1 "a" "b" { cluster := "cS", authInfo := "uS" }
      { cluster := "cS", authInfo := "uS" } "cS" { server := "ss" }
      (by decide) (by decide) (by decide) (by decide) (by decide) (by decide)
      (by decide),
    h.2 "a" "b" { cluster := "cS", authInfo := "uS" }
      { cluster := "cS", authInfo := "uS" } "uS" { token := "ts" }
      (by decide) (by decide) (by decide) (by decide) (by decide) (by decide)
      (by decide)⟩

/-- C8: determinism with respect to outcomes — two runs over the same raw
config, ignore set, flags and probe capability produce extensionally equal
kept and removed configs for any two consumption orders. -/
theorem engine_deterministic (raw : Config) (ignore : List String)
    (cc cu : Bool) (probe : String → Bool) (order1 order2 : List String)
    (hwf : WFConfig raw) (h1 : order1.Perm (keysOf raw.contexts))
    (h2 : order2.Perm (keysOf raw.contexts)) :
    ConfigEquiv (Run (initOptions raw ignore cc cu) probe order1).result
      (Run (initOptions raw ignore cc cu) probe order2).result ∧
    ConfigEquiv (Run (initOptions raw ignore cc cu) probe order1).removed
      (Run (initOptions raw ignore cc cu) probe order2).removed := by
  have hnd1 : order1.Nodup := h1.symm.nodup hwf.1
  have hnd2 : order2.Nodup := h2.symm.nodup hwf.1
  have hmem1 : ∀ m ∈ order1, (lookup m raw.contexts).isSome := fun m hm =>
    (lookup_isSome_iff_mem _ _).mpr (h1.mem_iff.mp hm)
  have hmem2 : ∀ m ∈ order2, (lookup m raw.contexts).isSome := fun m hm =>
    (lookup_isSome_iff_mem _ _).mpr (h2.mem_iff.mp hm)
  have hp12 : order1.Perm order2 := h1.trans h2.symm
  constructor
  · refine ⟨?_, ?_, ?_, ?_, ?_, ?_⟩
    · intro k
      rw [Run_result_contexts raw ignore cc cu probe order1 hnd1 hmem1 k,
        Run_result_contexts raw ignore cc cu probe order2 hnd2 hmem2 k]
      by_cases hk : k ∈ order1
      · have hk2 : k ∈ order2 := hp12.mem_iff.mp hk
        simp [hk, hk2]
      · have hk2 : k ∉ order2 := fun h => hk (hp12.mem_iff.mpr h)
        simp [hk, hk2]
    · intro k
      rw [Run_result_clusters raw ignore cc cu probe order1 hwf.2.1 k,
        Run_result_clusters raw ignore cc cu probe order2 hwf.2.1 k,
        keptClusterRef_perm (initOptions raw ignore cc cu) probe hp12 k]
    · intro k
      rw [Run_result_authInfos raw ignore cc cu probe order1 hwf.2.2 k,
        Run_result_authInfos raw ignore cc cu probe order2 hwf.2.2 k,
        keptAuthRef_perm (initOptions raw ignore cc cu) probe hp12 k]
    · rw [Run_result_preferences, Run_result_preferences]
    · rw [Run_result_extensions, Run_result_extensions]
    · rw [Run_result_currentContext, Run_result_currentContext]
  · refine ⟨?_, ?_, ?_, ?_, ?_, ?_⟩
    · intro k
      rw [Run_removed_contexts raw ignore cc cu probe order1 hnd1 hmem1 k,
        Run_removed_contexts raw ignore cc cu probe order2 hnd2 hmem2 k]
      by_cases hk : k ∈ order1
      · have hk2 : k ∈ order2 := hp12.mem_iff.mp hk
        simp [hk, hk2]
      · have hk2 : k ∉ order2 := fun h => hk (hp12.mem_iff.mpr h)
        simp [hk, hk2]
    · intro k
      rw [Run_removed_clusters raw ignore cc cu probe order1 hwf.2.1 k,
        Run_removed_clusters raw ignore cc cu probe order2 hwf.2.1 k,
        removedClusterRef_perm (initOptions raw ignore cc cu) probe hp12 k]
    · intro k
      rw [Run_removed_authInfos raw ignore cc cu probe order1 hwf.2.2 k,
        Run_removed_authInfos raw ignore cc cu probe order2 hwf.2.2 k,
        removedAuthRef_perm (initOptions raw ignore cc cu) probe hp12 k]
    · rw [Run_removed_preferences, Run_removed_preferences]
    · rw [Run_removed_extensions, Run_removed_extensions]
    · rw [Run_removed_currentContext, Run_removed_currentContext]

/-- Witness for C8 at the three-context example with two different
consumption orders. -/
theorem engine_deterministic_witness :
    ConfigEquiv (Run (initOptions exampleRaw [] false false) exampleProbe
        ["a", "b", "c"]).result
      (Run (initOptions exampleRaw [] false false) exampleProbe
        ["c", "b", "a"]).result ∧
    ConfigEquiv (Run (initOptions exampleRaw [] false false) exampleProbe
        ["a", "b", "c"]).removed
      (Run (initOptions exampleRaw [] false false) exampleProbe
        ["c", "b", "a"]).removed :=
  engine_deterministic exampleRaw [] false false exampleProbe
    ["a", "b", "c"] ["c", "b", "a"] (by decide) (by decide) (by decide)

/-- C9: preferences/extensions pass-through and frame — after a run both
accumulators carry the raw config's preferences and extensions, and the
partition and zombie steps change no accumulator field other than the
contexts, clusters and authInfos maps (and leave `raw` itself untouched). -/
theorem preferences_extensions_passthrough (raw : Config)
    (ignore : List String) (cc cu : Bool) (probe : String → Bool)
    (order : List String) :
    (Run (initOptions raw ignore cc cu) probe order).result.preferences =
      raw.preferences ∧
    (Run (initOptions raw ignore cc cu) probe order).removed.preferences =
      raw.preferences ∧
    (Run (initOptions raw ignore cc cu) probe order).result.extensions =
      raw.extensions ∧
    (Run (initOptions raw ignore cc cu) probe order).removed.extensions =
      raw.extensions ∧
    (Run (initOptions raw ignore cc cu) probe
        order).result.currentContext = NewConfig.currentContext ∧
    (Run (initOptions raw ignore cc cu) probe
        order).removed.currentContext = NewConfig.currentContext ∧
    (∀ o : Options,
      (Run o probe order).result.preferences = o.result.preferences ∧
      (Run o probe order).removed.preferences = o.removed.preferences ∧
      (Run o probe order).result.extensions = o.result.extensions ∧
      (Run o probe order).removed.extensions = o.removed.extensions ∧
      (Run o probe order).result.currentContext =
        o.result.currentContext ∧
      (Run o probe order).removed.currentContext =
        o.removed.currentContext ∧
      (Run o probe order).raw = o.raw) := by
  refine ⟨?_, ?_, ?_, ?_, ?_, ?_, ?_⟩
  · rw [Run_result_preferences]
    rfl
  · rw [Run_removed_preferences]
    rfl
  · rw [Run_result_extensions]
    rfl
  · rw [Run_removed_extensions]
    rfl
  · rw [Run_result_currentContext]
    rfl
  · rw [Run_removed_currentContext]
    rfl
  · intro o
    exact ⟨Run_result_preferences o probe order,
      Run_removed_preferences o probe order,
      Run_result_extensions o probe order,
      Run_removed_extensions o probe order,
      Run_result_currentContext o probe order,
      Run_removed_currentContext o probe order,
      Run_raw o probe order⟩

end Cleanup
